import Mathlib

/-!
Formal model of the quibble adversarial-review CLI.

Shallow embedding conventions:
* JavaScript strings are modeled as lists of characters (`Str`); `charCodeAt`
  is `Char.toNat` (faithful for the code points appearing in this development).
* JavaScript numbers reachable here (JSON literals, `parseFloat` results) are
  modeled as exact decimals (`JNum`), with explicit infinity/NaN tags where
  `parseFloat` can produce them; 32-bit integer coercion (`| 0` / `& x`) is
  modeled by `toInt32` on unbounded integers.
* `JSON.parse` is modeled by a recursive-descent parser `jsParse` over the
  ECMA-404 grammar (whitespace, literals, numbers, strings with escapes,
  arrays, objects with last-duplicate-key-wins), fuel-bounded by input length.
* JavaScript truthiness of a possibly-null parse result is `jsTruthy`.
* Asynchronous effects are modeled by explicit state passing; thrown errors by
  `Except`; wall-clock timestamps are outside the model (kept as flags).
-/

namespace Quibble

/-- JavaScript strings as lists of characters. -/
abbrev Str := List Char

/-- Opening curly bracket character (written via its code point). -/
def obrace : Char := Char.ofNat 123

/-- Closing curly bracket character (written via its code point). -/
def cbrace : Char := Char.ofNat 125

/-- Whitespace recognized by the model of `String.prototype.trim` (the ASCII
subset; the JavaScript original also strips some Unicode spaces, which do not
occur in any input considered here). -/
def isJsTrimWs (c : Char) : Bool :=
  c = ' ' || c = '\t' || c = '\n' || c = '\r' || c = Char.ofNat 11 || c = Char.ofNat 12

/-- Model of `String.prototype.trim`. -/
def jsTrim (s : Str) : Str :=
  ((s.dropWhile isJsTrimWs).reverse.dropWhile isJsTrimWs).reverse

/-- Exact decimal representation of the JavaScript numbers arising here (JSON
literals and `parseFloat` results): the value `mant * 10 ^ exp10`.  Distinct
representations of one value (such as 1 versus 10·10⁻¹) are never compared for
equality by any modeled operation, and the order comparisons below are exact,
so this is a faithful model of the finite numbers involved. -/
structure JNum : Type where
  mant : Int
  exp10 : Int
deriving DecidableEq, Repr

/-- Exact order comparison of two decimal representations (cross-scaled by
powers of ten). -/
def JNum.leb (a b : JNum) : Bool :=
  let d := a.exp10 - b.exp10
  if 0 ≤ d then a.mant * 10 ^ d.toNat ≤ b.mant
  else a.mant ≤ b.mant * 10 ^ (-d).toNat

/-- Strict comparison, the negation of the reversed `leb`. -/
def JNum.ltb (a b : JNum) : Bool := !(JNum.leb b a)

/-- The number zero. -/
def jnum0 : JNum := ⟨0, 0⟩

/-- The number one. -/
def jnum1 : JNum := ⟨1, 0⟩

/-- JSON values as produced by `JSON.parse`. -/
inductive JsonVal : Type where
  | null : JsonVal
  | bool (b : Bool) : JsonVal
  | num (q : JNum) : JsonVal
  | str (s : Str) : JsonVal
  | arr (elems : List JsonVal) : JsonVal
  | obj (fields : List (Str × JsonVal)) : JsonVal
deriving Repr

/-- JavaScript truthiness of a value-or-null (`none` is the JS `null` that
`tryParseJson` returns on a parse exception). -/
def jsTruthy : Option JsonVal → Bool
  | none => false
  | some .null => false
  | some (.bool b) => b
  | some (.num q) => decide (q.mant ≠ 0)
  | some (.str s) => !s.isEmpty
  | some (.arr _) => true
  | some (.obj _) => true

/-- JSON whitespace (exactly the four characters of ECMA-404). -/
def isJsonWs (c : Char) : Bool :=
  c = ' ' || c = '\t' || c = '\n' || c = '\r'

/-- Drop leading JSON whitespace. -/
def skipWs : Str → Str
  | [] => []
  | c :: t => if isJsonWs c then skipWs t else c :: t

/-- Value of a hexadecimal digit. -/
def hexVal (c : Char) : Option Nat :=
  if '0' ≤ c ∧ c ≤ '9' then some (c.toNat - 48)
  else if 'a' ≤ c ∧ c ≤ 'f' then some (c.toNat - 87)
  else if 'A' ≤ c ∧ c ≤ 'F' then some (c.toNat - 55)
  else none

/-- Parse the body of a JSON string literal (the opening quote already
consumed); returns the decoded characters and the rest of the input after the
closing quote.  Escape sequences follow ECMA-404; a `\u` escape decodes its
code unit via `Char.ofNat` (lone surrogates, which `Char` cannot represent,
do not occur in the inputs of this development). -/
def parseStringBody : Str → Option (Str × Str)
  | [] => none
  | c :: t =>
    if c = '"' then some ([], t)
    else if c = '\\' then
      match t with
      | [] => none
      | e :: t2 =>
        if e = '"' then (parseStringBody t2).map (fun p => ('"' :: p.1, p.2))
        else if e = '\\' then (parseStringBody t2).map (fun p => ('\\' :: p.1, p.2))
        else if e = '/' then (parseStringBody t2).map (fun p => ('/' :: p.1, p.2))
        else if e = 'b' then (parseStringBody t2).map (fun p => (Char.ofNat 8 :: p.1, p.2))
        else if e = 'f' then (parseStringBody t2).map (fun p => (Char.ofNat 12 :: p.1, p.2))
        else if e = 'n' then (parseStringBody t2).map (fun p => ('\n' :: p.1, p.2))
        else if e = 'r' then (parseStringBody t2).map (fun p => ('\r' :: p.1, p.2))
        else if e = 't' then (parseStringBody t2).map (fun p => ('\t' :: p.1, p.2))
        else if e = 'u' then
          match t2 with
          | a :: b :: cc :: d :: t3 =>
            match hexVal a, hexVal b, hexVal cc, hexVal d with
            | some va, some vb, some vc, some vd =>
              (parseStringBody t3).map
                (fun p => (Char.ofNat (va * 4096 + vb * 256 + vc * 16 + vd) :: p.1, p.2))
            | _, _, _, _ => none
          | _ => none
        else none
    else if c.toNat < 32 then none
    else (parseStringBody t).map (fun p => (c :: p.1, p.2))

/-- Numeric value of a digit string. -/
def digitsVal (ds : Str) : Nat :=
  ds.foldl (fun a c => a * 10 + (c.toNat - 48)) 0

/-- Parse an optional JSON exponent part; `(0, s)` when absent. -/
def parseExpPart (s : Str) : Option (Int × Str) :=
  match s with
  | c :: t =>
    if c = 'e' || c = 'E' then
      let sgn : Int × Str :=
        match t with
        | '+' :: u => (1, u)
        | '-' :: u => (-1, u)
        | _ => (1, t)
      let ds := sgn.2.takeWhile Char.isDigit
      if ds.isEmpty then none
      else some (sgn.1 * (digitsVal ds : Int), sgn.2.dropWhile Char.isDigit)
    else some (0, s)
  | [] => some (0, [])

/-- Parse an optional JSON fraction part; `("", s)` when absent. -/
def parseFracPart (s : Str) : Option (Str × Str) :=
  match s with
  | '.' :: t =>
    let ds := t.takeWhile Char.isDigit
    if ds.isEmpty then none else some (ds, t.dropWhile Char.isDigit)
  | _ => some ([], s)

/-- Parse a JSON number per the ECMA-404 grammar (no leading `+`, no leading
zeros, mandatory digits around the decimal point).  The value
`±(int.frac) * 10 ^ e` is represented exactly as the mantissa
`±(digits of int and frac)` times `10 ^ (e - |frac|)`. -/
def parseNumber (s : Str) : Option (JNum × Str) :=
  let sgn : Bool × Str :=
    match s with
    | '-' :: t => (true, t)
    | _ => (false, s)
  let intDigits := sgn.2.takeWhile Char.isDigit
  if intDigits.isEmpty then none
  else if 1 < intDigits.length ∧ intDigits.head? = some '0' then none
  else
    match parseFracPart (sgn.2.dropWhile Char.isDigit) with
    | none => none
    | some (fracDigits, s2) =>
      match parseExpPart s2 with
      | none => none
      | some (e, s3) =>
        let m : Int := digitsVal (intDigits ++ fracDigits)
        some (⟨if sgn.1 then -m else m, e - fracDigits.length⟩, s3)

mutual

/-- Parse one JSON value, fuel-bounded. -/
def parseValue : Nat → Str → Option (JsonVal × Str)
  | 0, _ => none
  | fuel + 1, s =>
    match skipWs s with
    | [] => none
    | c :: t =>
      if c = obrace then parseObjBody fuel t
      else if c = '[' then parseArrBody fuel t
      else if c = '"' then (parseStringBody t).map (fun p => (.str p.1, p.2))
      else if "true".toList.isPrefixOf (c :: t) then some (.bool true, (c :: t).drop 4)
      else if "false".toList.isPrefixOf (c :: t) then some (.bool false, (c :: t).drop 5)
      else if "null".toList.isPrefixOf (c :: t) then some (.null, (c :: t).drop 4)
      else (parseNumber (c :: t)).map (fun p => (.num p.1, p.2))

/-- Parse an object body (after the opening brace). -/
def parseObjBody : Nat → Str → Option (JsonVal × Str)
  | 0, _ => none
  | fuel + 1, s =>
    match skipWs s with
    | [] => none
    | c :: t =>
      if c = cbrace then some (.obj [], t)
      else (parseMembers fuel (c :: t)).map (fun p => (.obj p.1, p.2))

/-- Parse one or more `"key": value` members, ended by a closing brace. -/
def parseMembers : Nat → Str → Option (List (Str × JsonVal) × Str)
  | 0, _ => none
  | fuel + 1, s =>
    match skipWs s with
    | '"' :: t =>
      match parseStringBody t with
      | none => none
      | some (key, r1) =>
        match skipWs r1 with
        | ':' :: r2 =>
          match parseValue fuel r2 with
          | none => none
          | some (v, r3) =>
            match skipWs r3 with
            | [] => none
            | c :: r4 =>
              if c = ',' then (parseMembers fuel r4).map (fun p => ((key, v) :: p.1, p.2))
              else if c = cbrace then some ([(key, v)], r4)
              else none
        | _ => none
    | _ => none

/-- Parse an array body (after the opening bracket). -/
def parseArrBody : Nat → Str → Option (JsonVal × Str)
  | 0, _ => none
  | fuel + 1, s =>
    match skipWs s with
    | [] => none
    | c :: t =>
      if c = ']' then some (.arr [], t)
      else (parseElems fuel (c :: t)).map (fun p => (.arr p.1, p.2))

/-- Parse one or more array elements, ended by a closing bracket. -/
def parseElems : Nat → Str → Option (List JsonVal × Str)
  | 0, _ => none
  | fuel + 1, s =>
    match parseValue fuel s with
    | none => none
    | some (v, r1) =>
      match skipWs r1 with
      | ',' :: r2 => (parseElems fuel r2).map (fun p => (v :: p.1, p.2))
      | ']' :: r2 => some ([v], r2)
      | _ => none

end

/-- Model of `JSON.parse`: one value plus trailing whitespace must consume the
whole input.  Fuel `length + 1` suffices because every recursive descent
consumes at least one character first. -/
def jsParse (s : Str) : Option JsonVal :=
  match parseValue (s.length + 1) s with
  | some (v, rest) => if (skipWs rest).isEmpty then some v else none
  | none => none

/-- Model of `tryParseJson` from the parsing utility: `JSON.parse` with
exceptions mapped to the JS `null` (`none`). -/
def tryParseJson (content : Str) : Option JsonVal :=
  jsParse content

/-! ### Structured-output extraction (`src/utils/parsing.ts`) -/

/-- Model of `String.prototype.indexOf` for a substring: index of the first
occurrence, `none` when absent (the JS `-1`). -/
def strIndexOf : Str → Str → Option Nat
  | hay, needle =>
    if needle.isPrefixOf hay then some 0
    else
      match hay with
      | [] => none
      | _ :: t => (strIndexOf t needle).map (· + 1)

/-- The start sentinel token. -/
def sentinelStart : Str := "<<<QUIBBLE_JSON_START>>>".toList

/-- The end sentinel token. -/
def sentinelEnd : Str := "<<<QUIBBLE_JSON_END>>>".toList

/-- Model of `extractBetweenSentinels`: the trimmed content strictly between
the first occurrence of the start sentinel and the first occurrence of the end
sentinel, provided both exist and the end index is strictly greater than the
start index. -/
def extractBetweenSentinels (content : Str) : Option Str :=
  match strIndexOf content sentinelStart, strIndexOf content sentinelEnd with
  | some s, some e =>
    if e ≤ s then none
    else some (jsTrim ((content.drop (s + sentinelStart.length)).take
        (e - (s + sentinelStart.length))))
  | _, _ => none

/-- The triple-backtick fence token. -/
def fenceTok : Str := "```".toList

/-- Model of `extractFromCodeFence`, i.e. of the first match of the regular
expression matching a fenced code block with an optional `json` tag: the body
runs from the first fence token (past an immediately following literal `json`)
to the next fence token, and is trimmed.  Trimming makes the greedy/lazy
whitespace split of the original regex irrelevant, so this simpler form is
extensionally the same function. -/
def extractFromCodeFence (content : Str) : Option Str :=
  match strIndexOf content fenceTok with
  | none => none
  | some i =>
    let rest := content.drop (i + 3)
    let rest2 := if "json".toList.isPrefixOf rest then rest.drop 4 else rest
    match strIndexOf rest2 fenceTok with
    | none => none
    | some j => some (jsTrim (rest2.take j))

/-- Downward scan of `extractBraceContent`: try closing indices
`fb + n - 1, …, fb` and return the first slice from `fb` that ends at a
closing brace and parses to a JS-truthy value. -/
def braceScan (content : Str) (fb : Nat) : Nat → Option Str
  | 0 => none
  | n + 1 =>
    let i := fb + n
    let candidate := (content.drop fb).take (i + 1 - fb)
    if content.get? i = some cbrace ∧ jsTruthy (tryParseJson candidate) then
      some candidate
    else braceScan content fb n

/-- Model of `extractBraceContent`: substring from the first opening brace to
a closing brace scanned backward from the end of the text, the first candidate
that itself parses (to a truthy value, per the JS `if (tryParseJson(...))`). -/
def extractBraceContent (content : Str) : Option Str :=
  match strIndexOf content [obrace] with
  | none => none
  | some fb => braceScan content fb (content.length - fb)

/-- Model of `extractJsonValue`: the four-stage extraction exactly as coded.
Note two JavaScript-truthiness effects preserved from the source: an empty
(or whitespace-only) sentinel payload falls back to the whole trimmed text,
and a stage "succeeds" only when its parse result is truthy. -/
def extractJsonValue (output : Str) : Option JsonVal :=
  let jsonContent :=
    match extractBetweenSentinels output with
    | some c => if c.isEmpty then jsTrim output else c
    | none => jsTrim output
  let parsed0 := tryParseJson jsonContent
  let parsed1 :=
    if jsTruthy parsed0 then parsed0
    else
      match extractFromCodeFence output with
      | some f => if f.isEmpty then parsed0 else tryParseJson f
      | none => parsed0
  let parsed2 :=
    if jsTruthy parsed1 then parsed1
    else
      match extractBraceContent output with
      | some b => if b.isEmpty then parsed1 else tryParseJson b
      | none => parsed1
  parsed2

/-- Outcome of `parseCliOutput`: success with data, or a typed failure
carrying the raw text. -/
inductive ParseOutcome (α : Type) : Type where
  | success (data : α) : ParseOutcome α
  | noPayload (raw : Str) : ParseOutcome α
  | schemaMismatch (raw : Str) : ParseOutcome α
deriving Repr

/-- Model of `parseCliOutput`, parameterized by the schema validator. -/
def parseCliOutputWith {α : Type} (validate : JsonVal → Option α) (output : Str) :
    ParseOutcome α :=
  match extractJsonValue output with
  | none => .noPayload output
  | some v =>
    if jsTruthy (some v) then
      match validate v with
      | some d => .success d
      | none => .schemaMismatch output
    else .noPayload output

/-! ### Specification-side form of the extraction order (for claim C6) -/

/-- The ordered list of parse candidates the extractor actually attempts: the
primary candidate (nonempty sentinel content if available, else the full
trimmed text), then the first fenced code-block body when nonempty, then the
first-brace-to-scanned-close-brace substring when nonempty. -/
def candidateList (output : Str) : List Str :=
  let primary :=
    match extractBetweenSentinels output with
    | some c => if c.isEmpty then jsTrim output else c
    | none => jsTrim output
  let fenced :=
    match extractFromCodeFence output with
    | some f => if f.isEmpty then [] else [f]
    | none => []
  let braced :=
    match extractBraceContent output with
    | some b => if b.isEmpty then [] else [b]
    | none => []
  primary :: (fenced ++ braced)

/-- First-truthy-wins over a candidate list: return the first candidate whose
parse is JS-truthy; if none is, return the parse attempt of the last
candidate. -/
def firstTruthyParse : List Str → Option JsonVal
  | [] => none
  | [c] => tryParseJson c
  | c :: c2 :: rest =>
    if jsTruthy (tryParseJson c) then tryParseJson c
    else firstTruthyParse (c2 :: rest)

/-- Concrete input for claim C6: a JSON string literal whose contents are the
two sentinel tokens around the letter x.  The full trimmed text parses
directly, but the content between the sentinels does not. -/
def c6input : Str :=
  ('"' :: sentinelStart) ++ ('x' :: sentinelEnd) ++ ['"']

/-! ### Typed payloads (`src/types/index.ts`) -/

/-- Issue severity. -/
inductive Severity : Type where
  | critical | major | minor
deriving DecidableEq, Repr

/-- Opportunity impact. -/
inductive Impact : Type where
  | high | medium | low
deriving DecidableEq, Repr

/-- Author verdict on a feedback item.  The third value is named `partial` in
the source; that word is a reserved token here, so the constructor is
`partialV`. -/
inductive Verdict : Type where
  | agree | disagree | partialV
deriving DecidableEq, Repr

/-- Final consensus verdict of the reviewer. -/
inductive CVerdict : Type where
  | approve | reject
deriving DecidableEq, Repr

/-- Resolution status in a consensus-check payload. -/
inductive ResolutionStatus : Type where
  | resolved | inadequate | validly_disputed | new_issues
deriving DecidableEq, Repr

/-- A reviewer issue.  The source field `section` is a reserved word here and
is rendered `sectionName`. -/
structure Issue : Type where
  id : Str
  severity : Severity
  sectionName : Str
  description : Str
  suggestion : Option Str
deriving DecidableEq, Repr

/-- A reviewer opportunity. -/
structure Opportunity : Type where
  id : Str
  impact : Impact
  sectionName : Str
  description : Str
  suggestion : Option Str
deriving DecidableEq, Repr

/-- A review payload. -/
structure CodexReview : Type where
  issues : List Issue
  opportunities : List Opportunity
  overall_assessment : Str
deriving DecidableEq, Repr

/-- One author response to a feedback item. -/
structure FeedbackResponse : Type where
  feedback_id : Str
  verdict : Verdict
  reasoning : Str
  action_taken : Str
deriving DecidableEq, Repr

/-- The author's consensus self-assessment. -/
structure ConsensusAssessment : Type where
  reached : Bool
  outstanding_disagreements : List Str
  confidence : JNum
  summary : Str
deriving DecidableEq, Repr

/-- A response payload. -/
structure ClaudeResponse : Type where
  responses : List FeedbackResponse
  updated_document : Str
  consensus_assessment : ConsensusAssessment
deriving DecidableEq, Repr

/-- One per-feedback-id resolution in a consensus-check payload. -/
structure FeedbackResolution : Type where
  original_feedback_id : Str
  resolution_status : ResolutionStatus
  comment : Str
deriving DecidableEq, Repr

/-- A consensus-check payload. -/
structure CodexConsensus : Type where
  verdict : CVerdict
  feedback_responses : List FeedbackResolution
  new_issues : List Issue
  summary : Str
deriving DecidableEq, Repr

/-! ### Zod schema validation for response payloads (`ClaudeResponseSchema`) -/

/-- JS property read on a parsed JSON value: object lookup with
last-duplicate-key-wins (the `Map`/object semantics of `JSON.parse`); reads of
the record keys used in this development on arrays or primitives yield
`undefined` (`none`). -/
def jsGet : JsonVal → Str → Option JsonVal
  | .obj fields, k =>
    match fields.reverse.find? (fun p => p.1 = k) with
    | some p => some p.2
    | none => none
  | _, _ => none

/-- Validate one element against `FeedbackResponseSchema`. -/
def validateFeedbackResponse (v : JsonVal) : Option FeedbackResponse :=
  match v with
  | .obj _ =>
    match jsGet v "feedback_id".toList, jsGet v "verdict".toList,
        jsGet v "reasoning".toList, jsGet v "action_taken".toList with
    | some (.str fid), some (.str vd), some (.str rs), some (.str act) =>
      if vd = "agree".toList then some ⟨fid, .agree, rs, act⟩
      else if vd = "disagree".toList then some ⟨fid, .disagree, rs, act⟩
      else if vd = "partial".toList then some ⟨fid, .partialV, rs, act⟩
      else none
    | _, _, _, _ => none
  | _ => none

/-- Validate against `ConsensusAssessmentSchema` (`confidence` must be a
number within `[0, 1]`, `outstanding_disagreements` an array of strings). -/
def validateConsensusAssessment (v : JsonVal) : Option ConsensusAssessment :=
  match v with
  | .obj _ =>
    match jsGet v "reached".toList, jsGet v "outstanding_disagreements".toList,
        jsGet v "confidence".toList, jsGet v "summary".toList with
    | some (.bool b), some (.arr xs), some (.num q), some (.str sm) =>
      if JNum.leb jnum0 q ∧ JNum.leb q jnum1 then
        match xs.mapM (fun x => match x with | .str s => some s | _ => none) with
        | some outs => some ⟨b, outs, q, sm⟩
        | none => none
      else none
    | _, _, _, _ => none
  | _ => none

/-- Validate against `ClaudeResponseSchema`. -/
def validateClaudeResponse (v : JsonVal) : Option ClaudeResponse :=
  match v with
  | .obj _ =>
    match jsGet v "responses".toList, jsGet v "updated_document".toList,
        jsGet v "consensus_assessment".toList with
    | some (.arr items), some (.str doc), some ca =>
      match items.mapM validateFeedbackResponse, validateConsensusAssessment ca with
      | some rs, some cav => some ⟨rs, doc, cav⟩
      | _, _ => none
    | _, _, _ => none
  | _ => none

/-! ### Field-level repair of response payloads (`repairClaudeResponse`) -/

/-- Model of `normalizeVerdict`: one of the three known verdict strings is
kept, anything else becomes the string `partial`. -/
def normalizeVerdictJs (value : Option JsonVal) : Str :=
  match value with
  | some (.str s) =>
    if s = "agree".toList ∨ s = "disagree".toList ∨ s = "partial".toList then s
    else "partial".toList
  | _ => "partial".toList

/-- Model of `normalizeBoolean`: booleans kept; the strings true/false
(case-insensitively) recognized; everything else `false`. -/
def normalizeBooleanJs (value : Option JsonVal) : Bool :=
  match value with
  | some (.bool b) => b
  | some (.str s) =>
    if s.map Char.toLower = "true".toList then true
    else false
  | _ => false

/-- Result of the `parseFloat` model. -/
inductive JsNumV : Type where
  | val (q : JNum) | posInf | negInf | nan
deriving DecidableEq, Repr

/-- Model of `Number.parseFloat`: leading whitespace skipped, optional sign,
an `Infinity` literal or the longest decimal-literal prefix with optional
fraction and exponent; `nan` when no digits can be read. -/
def parseFloatJs (s : Str) : JsNumV :=
  let s1 := s.dropWhile isJsTrimWs
  let sgn : Bool × Str :=
    match s1 with
    | '-' :: t => (true, t)
    | '+' :: t => (false, t)
    | _ => (false, s1)
  if "Infinity".toList.isPrefixOf sgn.2 then
    if sgn.1 then .negInf else .posInf
  else
    let intDigits := sgn.2.takeWhile Char.isDigit
    let s2 := sgn.2.dropWhile Char.isDigit
    let fracPair : Str × Str :=
      match s2 with
      | '.' :: t => (t.takeWhile Char.isDigit, t.dropWhile Char.isDigit)
      | _ => ([], s2)
    if intDigits.isEmpty ∧ fracPair.1.isEmpty then .nan
    else
      let e : Int :=
        match fracPair.2 with
        | c :: t =>
          if c = 'e' ∨ c = 'E' then
            let esgn : Int × Str :=
              match t with
              | '+' :: u => (1, u)
              | '-' :: u => (-1, u)
              | _ => (1, t)
            let ds := esgn.2.takeWhile Char.isDigit
            if ds.isEmpty then 0 else esgn.1 * (digitsVal ds : Int)
          else 0
        | [] => 0
      let m : Int := digitsVal (intDigits ++ fracPair.1)
      .val ⟨if sgn.1 then -m else m, e - fracPair.1.length⟩

/-- Model of `normalizeConfidence`: numbers clamped into `[0, 1]`; strings go
through `parseFloat` first; `NaN` (hence any other type) becomes 0; the
infinities clamp like any out-of-range number. -/
def normalizeConfidenceJs (value : Option JsonVal) : JNum :=
  let numeric : JsNumV :=
    match value with
    | some (.num q) => .val q
    | some (.str s) => parseFloatJs s
    | _ => .nan
  match numeric with
  | .nan => jnum0
  | .negInf => jnum0
  | .posInf => jnum1
  | .val q => if JNum.ltb q jnum0 then jnum0 else if JNum.ltb jnum1 q then jnum1 else q

/-- Model of `normalizeStringArray`: arrays keep their string elements only, a
bare string becomes a one-element array, anything else the empty array. -/
def normalizeStringArrayJs (value : Option JsonVal) : List JsonVal :=
  match value with
  | some (.arr xs) =>
    xs.filter (fun x => match x with | .str _ => true | _ => false)
  | some (.str s) => [.str s]
  | _ => []

/-- Repair of one element of `responses` (by position `index`, 0-based). -/
def repairItem (index : Nat) (response : JsonVal) : JsonVal :=
  let item : JsonVal :=
    match response with
    | .obj fs => .obj fs
    | .arr xs => .arr xs
    | _ => .obj []
  let feedbackId : Str :=
    match jsGet item "feedback_id".toList with
    | some (.str s) => if (jsTrim s).isEmpty then "unknown-".toList ++ (Nat.repr (index + 1)).toList else s
    | _ => "unknown-".toList ++ (Nat.repr (index + 1)).toList
  let reasoning : Str :=
    match jsGet item "reasoning".toList with
    | some (.str s) => s
    | _ => []
  let actionTaken : Str :=
    match jsGet item "action_taken".toList with
    | some (.str s) => s
    | _ => []
  .obj [("feedback_id".toList, .str feedbackId),
        ("verdict".toList, .str (normalizeVerdictJs (jsGet item "verdict".toList))),
        ("reasoning".toList, .str reasoning),
        ("action_taken".toList, .str actionTaken)]

/-- The pure assembly step of `repairClaudeResponse`, applied to the value the
extractor produced. -/
def repairRecord (v : JsonVal) (originalDocument : Str) : JsonVal :=
  let responses : List JsonVal :=
    match jsGet v "responses".toList with
    | some (.arr xs) => xs
    | _ => []
  let repairedResponses := (responses.enum.map (fun p => repairItem p.1 p.2))
  let updatedDocument : Str :=
    match jsGet v "updated_document".toList with
    | some (.str s) => s
    | _ => originalDocument
  let consensus : JsonVal :=
    match jsGet v "consensus_assessment".toList with
    | some (.obj fs) => .obj fs
    | some (.arr xs) => .arr xs
    | _ => .obj []
  .obj [("responses".toList, .arr repairedResponses),
        ("updated_document".toList, .str updatedDocument),
        ("consensus_assessment".toList, .obj
          [("reached".toList, .bool (normalizeBooleanJs (jsGet consensus "reached".toList))),
           ("outstanding_disagreements".toList,
             .arr (normalizeStringArrayJs (jsGet consensus "outstanding_disagreements".toList))),
           ("confidence".toList, .num (normalizeConfidenceJs (jsGet consensus "confidence".toList))),
           ("summary".toList, .str
             (match jsGet consensus "summary".toList with
              | some (.str s) => s
              | _ => []))])]

/-- Model of `repairClaudeResponse`: re-extract, require a truthy value of JS
type object (objects and arrays; `typeof null` is object but null is falsy),
then assemble defaults field by field. -/
def repairClaudeResponse (output : Str) (originalDocument : Str) : Option JsonVal :=
  match extractJsonValue output with
  | some v =>
    if jsTruthy (some v) then
      match v with
      | .obj _ => some (repairRecord v originalDocument)
      | .arr _ => some (repairRecord v originalDocument)
      | _ => none
    else none
  | none => none

/-! ### The respond entry point (`ClaudeClient.respond`, parse/repair part) -/

/-- Trace of one `respond` parse: the outcome plus how many times repair was
attempted and how many times the repaired structure was re-validated. -/
structure RespondTrace : Type where
  result : Except Str ClaudeResponse
  repairAttempts : Nat
  revalidations : Nat
deriving Repr

/-- Model of the parse/repair/validate portion of `ClaudeClient.respond`:
validate the raw output; on failure repair once and re-validate once; no
second attempt of either. -/
def respondParse (output : Str) (originalDocument : Str) : RespondTrace :=
  match parseCliOutputWith validateClaudeResponse output with
  | .success d => ⟨.ok d, 0, 0⟩
  | _ =>
    match repairClaudeResponse output originalDocument with
    | none => ⟨.error "Failed to parse Claude response".toList, 1, 0⟩
    | some repaired =>
      match validateClaudeResponse repaired with
      | some d => ⟨.ok d, 1, 1⟩
      | none => ⟨.error "Failed to parse Claude response".toList, 1, 1⟩

/-! ### Feedback fingerprinting (`Orchestrator.hashFeedback`) -/

/-- Sort key of an issue: id concatenated with description, exactly the string
the source comparator passes to `localeCompare`. -/
def sortKeyI (i : Issue) : Str := i.id ++ i.description

/-- Sort key of an opportunity. -/
def sortKeyO (o : Opportunity) : Str := o.id ++ o.description

/-- The comparator ordering on issues.  `localeCompare` is modeled as the
code-point lexicographic order on strings; the fingerprint properties proved
below depend only on it being a total order compatible with equality. -/
def issueLe (a b : Issue) : Prop := sortKeyI a ≤ sortKeyI b

/-- The comparator ordering on opportunities. -/
def oppLe (a b : Opportunity) : Prop := sortKeyO a ≤ sortKeyO b

instance : DecidableRel issueLe := fun a b =>
  inferInstanceAs (Decidable (sortKeyI a ≤ sortKeyI b))

instance : DecidableRel oppLe := fun a b =>
  inferInstanceAs (Decidable (sortKeyO a ≤ sortKeyO b))

instance : IsTotal Issue issueLe := ⟨fun a b => le_total (sortKeyI a) (sortKeyI b)⟩

instance : IsTrans Issue issueLe := ⟨fun _ _ _ h1 h2 => le_trans h1 h2⟩

instance : IsTotal Opportunity oppLe := ⟨fun a b => le_total (sortKeyO a) (sortKeyO b)⟩

instance : IsTrans Opportunity oppLe := ⟨fun _ _ _ h1 h2 => le_trans h1 h2⟩

/-- Coercion of an unbounded integer into the signed 32-bit range, the effect
of the JavaScript `| 0`-style coercions (`<<` and `& x`). -/
def toInt32 (n : Int) : Int := (n + 2 ^ 31) % 2 ^ 32 - 2 ^ 31

/-- One step of the rolling hash: `hash = ((hash << 5) - hash) + code;
hash = hash & hash` with `hash` kept in the int32 range. -/
def hashStep (h : Int) (c : Char) : Int :=
  toInt32 (toInt32 (h * 32) - h + c.toNat)

/-- The rolling hash of a string, starting from 0. -/
def hashString (s : Str) : Int := s.foldl hashStep 0

/-- The normalized feedback content: issues and opportunities sorted by
id-plus-description, mapped to id-plus-description, joined with a bar, with
the two joins concatenated.  The source models `Array.prototype.sort` with a
comparator by a stable comparison sort. -/
def normalizedFeedback (review : CodexReview) : Str :=
  let issues := List.insertionSort issueLe review.issues
  let opportunities := List.insertionSort oppLe review.opportunities
  List.intercalate ['|'] (issues.map sortKeyI) ++
    List.intercalate ['|'] (opportunities.map sortKeyO)

/-- Model of `Orchestrator.hashFeedback`.  The source renders the final int32
in hexadecimal (`toString(16)`), an injective postcomposition which is dropped
here: two fingerprints are equal iff the hash integers are. -/
def hashFeedback (review : CodexReview) : Int :=
  hashString (normalizedFeedback review)

/-! ### Session state, manifest and statistics (`src/state/session.ts`) -/

/-- Session status. -/
inductive SessionStatus : Type where
  | in_progress | completed | failed
  | max_rounds_reached | max_rounds_reached_warning | max_rounds_reached_unsafeV
deriving DecidableEq, Repr

/-- Round phase. -/
inductive RoundPhase : Type where
  | pending | codex_review | claude_response | consensus_check | complete
deriving DecidableEq, Repr

/-- Aggregated session statistics. -/
structure SessionStatistics : Type where
  total_issues_raised : Nat
  issues_resolved : Nat
  issues_disputed : Nat
  critical_unresolved : Nat
  major_unresolved : Nat
  total_opportunities_raised : Nat
  opportunities_accepted : Nat
  opportunities_rejected : Nat
  consensus_reached : Bool
deriving DecidableEq, Repr

/-- The all-zero statistics of a fresh manifest. -/
def initialStatistics : SessionStatistics :=
  ⟨0, 0, 0, 0, 0, 0, 0, 0, false⟩

/-- The session manifest.  Wall-clock timestamps are outside the model:
`started_at` is an opaque string, `completed_at` only records being set. -/
structure SessionManifest : Type where
  session_id : Str
  input_file : Str
  output_file : Str
  started_at : Str
  completed_at : Option Str
  status : SessionStatus
  current_round : Nat
  current_phase : RoundPhase
  max_rounds : Nat
  statistics : SessionStatistics
deriving DecidableEq, Repr

/-- The final summary artifact written at termination. -/
structure FinalSummary : Type where
  status : SessionStatus
  exit_code : Nat
  total_rounds : Nat
  statistics : SessionStatistics
deriving DecidableEq, Repr

/-- The session store.  The storage adapter's path-addressed blobs are
abstracted per artifact kind: the paths used by the session manager
(`manifest.json`, `round-N/codex-review.json`, `round-N/claude-response.json`,
`round-N/codex-consensus.json`, `round-N/document-vN.md`,
`round-N/timings.json`, `final/document.md`, `final/summary.json`) are
pairwise distinct, so a map per kind indexed by round is a faithful model;
serialization to JSON text is dropped (save and load are inverse on the
values considered here).  Timing records carry only wall-clock data, so just
their presence is tracked. -/
structure Store : Type where
  manifest : Option SessionManifest
  reviews : Nat → Option CodexReview
  responses : Nat → Option ClaudeResponse
  consensi : Nat → Option CodexConsensus
  docs : Nat → Option Str
  timingsWritten : Nat → Bool
  finalDoc : Option Str
  finalSummary : Option FinalSummary

/-- Point update of a round-indexed map. -/
def updAt {α : Type} (f : Nat → Option α) (n : Nat) (v : α) : Nat → Option α :=
  fun m => if m = n then some v else f m

/-- In-memory session manager state: the manifest held in memory plus the
backing store. -/
structure SessState : Type where
  manifest : SessionManifest
  store : Store

/-- Model of the private `saveManifest`. -/
def saveManifest (s : SessState) : SessState :=
  { s with store.manifest := some s.manifest }

/-- Model of `SessionManager.startRound`. -/
def startRound (s : SessState) (round : Nat) : SessState :=
  saveManifest { s with manifest.current_round := round, manifest.current_phase := .pending }

/-- Model of `SessionManager.setPhase`. -/
def setPhase (s : SessState) (phase : RoundPhase) : SessState :=
  saveManifest { s with manifest.current_phase := phase }

/-- Model of `SessionManager.saveCodexReview`. -/
def saveCodexReview (s : SessState) (round : Nat) (review : CodexReview) : SessState :=
  { s with store.reviews := updAt s.store.reviews round review }

/-- Model of `SessionManager.saveClaudeResponse`. -/
def saveClaudeResponse (s : SessState) (round : Nat) (response : ClaudeResponse) : SessState :=
  { s with store.responses := updAt s.store.responses round response }

/-- Model of `SessionManager.saveConsensusCheck`. -/
def saveConsensusCheck (s : SessState) (round : Nat) (consensus : CodexConsensus) : SessState :=
  { s with store.consensi := updAt s.store.consensi round consensus }

/-- Model of `SessionManager.saveDocument`. -/
def saveDocument (s : SessState) (round : Nat) (content : Str) : SessState :=
  { s with store.docs := updAt s.store.docs round content }

/-- Model of `SessionManager.saveRoundTimings` (content abstracted). -/
def saveRoundTimings (s : SessState) (round : Nat) : SessState :=
  { s with store.timingsWritten := fun m => if m = round then true else s.store.timingsWritten m }

/-- Severity of the issue with the given id, looked up in a review's issue
list.  The source builds a JS `Map` from the entry list, in which a later
duplicate key overwrites an earlier one, hence the reversed search. -/
def severityLookup (issues : List Issue) (fid : Str) : Option Severity :=
  match issues.reverse.find? (fun i => i.id = fid) with
  | some i => some i.severity
  | none => none

/-- The per-response-item update of the statistics loop; `conPresent` is the
truthiness of the loaded consensus payload in the `!consensus` guard. -/
def respStep (conPresent : Bool) (a : SessionStatistics) (r : FeedbackResponse) :
    SessionStatistics :=
  if "opp-".toList.isPrefixOf r.feedback_id then
    match r.verdict with
    | .agree => { a with opportunities_accepted := a.opportunities_accepted + 1 }
    | .disagree => { a with opportunities_rejected := a.opportunities_rejected + 1 }
    | .partialV => a
  else if conPresent = false ∧ "issue-".toList.isPrefixOf r.feedback_id then
    match r.verdict with
    | .agree => { a with issues_resolved := a.issues_resolved + 1 }
    | _ => a
  else a

/-- The per-resolution update of the statistics loop (severity looked up in
the same round's review). -/
def conStep (issues : List Issue) (a : SessionStatistics) (r : FeedbackResolution) :
    SessionStatistics :=
  match r.resolution_status with
  | .resolved => { a with issues_resolved := a.issues_resolved + 1 }
  | .validly_disputed => { a with issues_resolved := a.issues_resolved + 1 }
  | .inadequate =>
    let a1 := { a with issues_disputed := a.issues_disputed + 1 }
    let a2 :=
      if severityLookup issues r.original_feedback_id = some .critical then
        { a1 with critical_unresolved := a1.critical_unresolved + 1 }
      else a1
    if severityLookup issues r.original_feedback_id = some .major then
      { a2 with major_unresolved := a2.major_unresolved + 1 }
    else a2
  | .new_issues => a

/-- The per-new-issue update of the statistics loop. -/
def newIssueStep (a : SessionStatistics) (issue : Issue) : SessionStatistics :=
  let a1 :=
    if issue.severity = .critical then
      { a with critical_unresolved := a.critical_unresolved + 1 }
    else a
  if issue.severity = .major then
    { a1 with major_unresolved := a1.major_unresolved + 1 }
  else a1

/-- One round of the statistics recomputation loop of
`SessionManager.computeStatistics`. -/
def statsRound (store : Store) (acc : SessionStatistics) (round : Nat) : SessionStatistics :=
  let review := store.reviews round
  let response := store.responses round
  let consensus := store.consensi round
  let acc1 :=
    match review with
    | some rv =>
      { acc with
        total_issues_raised := acc.total_issues_raised + rv.issues.length
        total_opportunities_raised := acc.total_opportunities_raised + rv.opportunities.length }
    | none => acc
  let acc2 :=
    match response with
    | some resp =>
      let a := resp.responses.foldl (respStep consensus.isSome) acc1
      if resp.consensus_assessment.reached then { a with consensus_reached := true } else a
    | none => acc1
  match consensus, review with
  | some con, some rv =>
    let acc3 := con.feedback_responses.foldl (conStep rv.issues) acc2
    if 0 < con.new_issues.length then
      let acc4 :=
        { acc3 with total_issues_raised := acc3.total_issues_raised + con.new_issues.length }
      con.new_issues.foldl newIssueStep acc4
    else acc3
  | _, _ => acc2

/-- Model of `SessionManager.computeStatistics`: recompute from scratch over
rounds `1 .. currentRound`. -/
def computeStatistics (store : Store) (currentRound : Nat) : SessionStatistics :=
  (List.range' 1 currentRound).foldl (statsRound store) initialStatistics

/-- Model of `SessionManager.complete`: set final status, mark completion,
recompute statistics from the persisted artifacts, persist the manifest. -/
def completeSession (s : SessState) (status : SessionStatus) : SessState :=
  saveManifest
    { s with
      manifest.status := status
      manifest.completed_at := some []
      manifest.statistics := computeStatistics s.store s.manifest.current_round }

/-- Model of `SessionManager.findResumePoint`: existence checks on round
artifacts in the fixed order document, response, review. -/
def findResumePoint (s : SessState) : Nat × RoundPhase :=
  let round := s.manifest.current_round
  let hasCodexReview := (s.store.reviews round).isSome
  let hasClaudeResponse := (s.store.responses round).isSome
  let hasDocument := (s.store.docs round).isSome
  if hasDocument then (round + 1, .pending)
  else if hasClaudeResponse then (round, .consensus_check)
  else if hasCodexReview then (round, .claude_response)
  else (round, .codex_review)

/-- State-passing form of `findResumePoint`: the source issues only
`storage.exists` reads, so the state component is returned unchanged. -/
def findResumePointSt (s : SessState) : SessState × (Nat × RoundPhase) :=
  (s, findResumePoint s)

/-- A fresh manifest as built by `createInitialManifest` (ids, paths and the
start timestamp are opaque). -/
def freshManifest (maxRounds : Nat) : SessionManifest :=
  ⟨[], [], [], [], none, .in_progress, 1, .pending, maxRounds, initialStatistics⟩

/-- The store right after `SessionManager.initialize` of a fresh session. -/
def freshStore (maxRounds : Nat) : Store :=
  ⟨some (freshManifest maxRounds), fun _ => none, fun _ => none, fun _ => none,
    fun _ => none, fun _ => false, none, none⟩

/-- A freshly initialized session state. -/
def freshSession (maxRounds : Nat) : SessState :=
  ⟨freshManifest maxRounds, freshStore maxRounds⟩

/-! ### The review-cycle orchestrator (`src/core/orchestrator.ts`) -/

/-- Orchestrator configuration: the input document contents and the round
bound (paths, debug options and context-collector limits do not affect the
modeled behavior). -/
structure Config : Type where
  inputDoc : Str
  maxRounds : Nat

/-- The two collaborating agents as round-indexed oracles which may fail.
Every concrete run — whatever the agents answer on whatever prompt — is
represented by some choice of oracles, so universal theorems over `Oracles`
cover all runs. -/
structure Oracles : Type where
  review : Nat → Except Str CodexReview
  respond : Nat → Except Str ClaudeResponse
  consensus : Nat → Except Str CodexConsensus

/-- Log of collaborator invocations: the rounds at which each agent was
actually invoked (loads from storage are not invocations). -/
structure RunLog : Type where
  codexCalls : List Nat
  claudeCalls : List Nat
  consensusCalls : List Nat
deriving DecidableEq, Repr

/-- The empty log. -/
def RunLog.nil : RunLog := ⟨[], [], []⟩

/-- Log concatenation. -/
def RunLog.append (a b : RunLog) : RunLog :=
  ⟨a.codexCalls ++ b.codexCalls, a.claudeCalls ++ b.claudeCalls,
    a.consensusCalls ++ b.consensusCalls⟩

/-- Which of the three `terminate` call sites produced the result. -/
inductive ExitVia : Type where
  | stalemate | approve | maxRounds
deriving DecidableEq, Repr

/-- The orchestrator result (plus the call-site tag). -/
structure RunResult : Type where
  status : SessionStatus
  exitCode : Nat
  finalDocument : Str
  totalRounds : Nat
  exitVia : ExitVia
deriving DecidableEq, Repr

/-- Model of `Orchestrator.statusToExitCode`. -/
def statusToExitCode : SessionStatus → Nat
  | .completed => 0
  | .max_rounds_reached => 0
  | .max_rounds_reached_warning => 1
  | .max_rounds_reached_unsafeV => 2
  | .failed => 2
  | .in_progress => 0

/-- Model of `Orchestrator.determineMaxRoundsStatus`: graded from the
statistics currently held in the in-memory manifest. -/
def determineMaxRoundsStatus (s : SessState) : SessionStatus :=
  let stats := s.manifest.statistics
  if 0 < stats.critical_unresolved then .max_rounds_reached_unsafeV
  else if 0 < stats.major_unresolved then .max_rounds_reached_warning
  else .max_rounds_reached

/-- Model of `Orchestrator.terminate`: persist the final document, compute the
exit code, complete the session (which recomputes statistics), persist the
final summary.  Writing the document to the user-specified output path is the
`finalDocument` component of the result. -/
def terminateRun (status : SessionStatus) (totalRounds : Nat) (doc : Str)
    (s : SessState) (via : ExitVia) : RunResult × SessState :=
  let s1 := { s with store.finalDoc := some doc }
  let exitCode := statusToExitCode status
  let s2 := completeSession s1 status
  let summary : FinalSummary := ⟨status, exitCode, totalRounds, s2.manifest.statistics⟩
  let s3 := { s2 with store.finalSummary := some summary }
  (⟨status, exitCode, doc, totalRounds, via⟩, s3)

/-- In-memory loop state of `Orchestrator.run`: the loop variables
`currentRound`, `currentPhase`, the stalemate fingerprint
(`previousFeedbackHash`, held only in process memory) and
`currentDocument`, plus the session state. -/
structure LoopState : Type where
  round : Nat
  phase : RoundPhase
  prevHash : Option Int
  doc : Str
  sess : SessState

/-- Outcome of one round-loop iteration. -/
inductive StepOut : Type where
  | done (res : RunResult) (st : SessState)
  | next (ls : LoopState)
  | failed (msg : Str) (st : SessState)

/-- Phase 3 (consensus check) and round epilogue. -/
def stepPhase3 (o : Oracles) (round : Nat) (prevHash2 : Option Int)
    (response : ClaudeResponse) (phase2v : RoundPhase) (doc2 : Str)
    (s : SessState) : StepOut × RunLog :=
  if phase2v = .consensus_check then
    let s1 := setPhase s .consensus_check
    if response.consensus_assessment.reached then
      match o.consensus round with
      | .error e => (.failed e s1, ⟨[], [], [round]⟩)
      | .ok con =>
        let s2 := saveConsensusCheck s1 round con
        if con.verdict = .approve then
          let s3 := saveRoundTimings s2 round
          let (res, s4) := terminateRun .completed round doc2 s3 .approve
          (.done res s4, ⟨[], [], [round]⟩)
        else
          let s3 := saveRoundTimings s2 round
          (.next ⟨round + 1, .pending, prevHash2, doc2, setPhase s3 .complete⟩,
            ⟨[], [], [round]⟩)
    else
      let s2 := saveRoundTimings s1 round
      (.next ⟨round + 1, .pending, prevHash2, doc2, setPhase s2 .complete⟩, RunLog.nil)
  else
    (.next ⟨round + 1, .pending, prevHash2, doc2, setPhase s .complete⟩, RunLog.nil)

/-- Phase 2 (author response), document adoption, then phase 3. -/
def stepPhase2 (o : Oracles) (round : Nat) (prevHash2 : Option Int)
    (phase1v : RoundPhase) (s : SessState) : StepOut × RunLog :=
  if phase1v = .claude_response then
    match o.respond round with
    | .error e => (.failed e (setPhase s .claude_response), ⟨[], [round], []⟩)
    | .ok response =>
      let s1 := saveClaudeResponse (setPhase s .claude_response) round response
      let doc2 := response.updated_document
      let s2 := saveDocument s1 round doc2
      let r := stepPhase3 o round prevHash2 response .consensus_check doc2 s2
      (r.1, RunLog.append ⟨[], [round], []⟩ r.2)
  else
    match s.store.responses round with
    | none => (.failed "loaded response missing".toList s, RunLog.nil)
    | some response =>
      let doc2 := response.updated_document
      let s2 := saveDocument s round doc2
      stepPhase3 o round prevHash2 response phase1v doc2 s2

/-- Stalemate check after the review is in hand, then phase 2. -/
def stepStalemate (o : Oracles) (ls : LoopState) (review : CodexReview)
    (phase1v : RoundPhase) (s : SessState) : StepOut × RunLog :=
  let h := hashFeedback review
  if ls.prevHash = some h then
    let s1 := saveRoundTimings s ls.round
    let (res, s2) := terminateRun .max_rounds_reached ls.round ls.doc s1 .stalemate
    (.done res s2, RunLog.nil)
  else
    stepPhase2 o ls.round (some h) phase1v s

/-- One iteration of the round loop (`while` body of `Orchestrator.run`). -/
def roundStep (o : Oracles) (ls : LoopState) : StepOut × RunLog :=
  let s0 := startRound ls.sess ls.round
  if ls.phase = .codex_review ∨ ls.phase = .pending then
    match o.review ls.round with
    | .error e => (.failed e (setPhase s0 .codex_review), ⟨[ls.round], [], []⟩)
    | .ok review =>
      let s1 := saveCodexReview (setPhase s0 .codex_review) ls.round review
      let r := stepStalemate o ls review .claude_response s1
      (r.1, RunLog.append ⟨[ls.round], [], []⟩ r.2)
  else
    match s0.store.reviews ls.round with
    | none => (.failed "loaded review missing".toList s0, RunLog.nil)
    | some review => stepStalemate o ls review ls.phase s0

/-- The fuel-indexed round loop; fuel counts the remaining admissible rounds,
so fuel 0 is exactly the failed `currentRound <= maxRounds` check. -/
def loopModel (o : Oracles) : Nat → LoopState → Except Str RunResult × SessState × RunLog
  | 0, ls =>
    let (res, s) :=
      terminateRun (determineMaxRoundsStatus ls.sess) (ls.round - 1) ls.doc ls.sess .maxRounds
    (.ok res, s, RunLog.nil)
  | fuel + 1, ls =>
    match roundStep o ls with
    | (.done res st, lg) => (.ok res, st, lg)
    | (.failed msg st, lg) => (.error msg, st, lg)
    | (.next ls2, lg) =>
      let r := loopModel o fuel ls2
      (r.1, r.2.1, lg.append r.2.2)

/-- Model of `Orchestrator.run`: read the input document, discover the resume
point, reload the previous round's document when resuming past round 1, then
drive the loop. -/
def runModel (o : Oracles) (cfg : Config) (st0 : SessState) :
    Except Str RunResult × SessState × RunLog :=
  let rp := findResumePoint st0
  let doc :=
    if 1 < rp.1 then
      match st0.store.docs (rp.1 - 1) with
      | some d => if d.isEmpty then cfg.inputDoc else d
      | none => cfg.inputDoc
    else cfg.inputDoc
  loopModel o (cfg.maxRounds + 1 - rp.1) ⟨rp.1, rp.2, none, doc, st0⟩

/-! ### The command layer (`src/cli/commands.ts`) -/

/-- An error event as emitted by `EventEmitter.emitError` (timestamp outside
the model). -/
structure ErrorEvent : Type where
  code : Str
  message : Str
  phase : Str
  round : Option Nat
  recoverable : Bool
deriving DecidableEq, Repr

/-- Model of the `try`/`catch` around `orchestrator.run()` in `execute`: a
successful run returns its exit code; a propagated failure emits one error
event with code `ORCHESTRATION_ERROR`, the constant phase label
`orchestration`, the session's current round and `recoverable = true`, and
returns exit code 2.  `session.complete` is not called on this path. -/
def executeModel (o : Oracles) (cfg : Config) (st0 : SessState) :
    Nat × List ErrorEvent × SessState :=
  match runModel o cfg st0 with
  | (.ok res, st, _) => (res.exitCode, [], st)
  | (.error msg, st, _) =>
    (2, [⟨"ORCHESTRATION_ERROR".toList, msg, "orchestration".toList,
      some st.manifest.current_round, true⟩], st)

/-! ### Specification-side definitions and concrete instances for the claims -/

/-- The phases in which an iteration freshly invokes the reviewer (rather than
loading a persisted review). -/
def invokesReview (ls : LoopState) : Prop :=
  ls.phase = RoundPhase.codex_review ∨ ls.phase = RoundPhase.pending

instance (ls : LoopState) : Decidable (invokesReview ls) := by
  unfold invokesReview
  infer_instance

/-- The review an iteration works with: the oracle's answer when freshly
invoked, the persisted artifact when resuming mid-round. -/
def reviewTaken (o : Oracles) (ls : LoopState) (rv : CodexReview) : Prop :=
  (invokesReview ls ∧ o.review ls.round = .ok rv) ∨
    (¬invokesReview ls ∧ ls.sess.store.reviews ls.round = some rv)

/-- The resume-point rule as the specification states it (section 4.3):
document snapshot present gives the next round pending; else a response gives
consensus-check; else a review gives claude-response; else codex-review. -/
def resumePointSpec (s : SessState) : Nat × RoundPhase :=
  let n := s.manifest.current_round
  if (s.store.docs n).isSome then (n + 1, .pending)
  else if (s.store.responses n).isSome then (n, .consensus_check)
  else if (s.store.reviews n).isSome then (n, .claude_response)
  else (n, .codex_review)

/-- Resolution counted as settled by a consensus-check: resolved or
validly-disputed. -/
def isSettled (r : FeedbackResolution) : Bool :=
  r.resolution_status = ResolutionStatus.resolved ∨
    r.resolution_status = ResolutionStatus.validly_disputed

/-- Author agreement on an issue-prefixed feedback id. -/
def isAgreedIssue (r : FeedbackResponse) : Bool :=
  "issue-".toList.isPrefixOf r.feedback_id && (r.verdict = Verdict.agree)

/-- The issues-resolved counting rule as the claim states it: author-verdict
agree on issue-prefixed ids in rounds without a consensus-check, resolution
status resolved or validly-disputed in rounds with one. -/
def issuesResolvedRule (store : Store) (n : Nat) : Nat :=
  ((List.range' 1 n).map (fun round =>
    match store.consensi round with
    | some con => con.feedback_responses.countP isSettled
    | none =>
      match store.responses round with
      | some resp => resp.responses.countP isAgreedIssue
      | none => 0)).sum

/-- C3 scenario review: two issues, one critical and one major. -/
def c3review : CodexReview :=
  ⟨[⟨"issue-1".toList, .critical, "s1".toList, "d1".toList, none⟩,
    ⟨"issue-2".toList, .major, "s2".toList, "d2".toList, none⟩], [], "oa".toList⟩

/-- C3 scenario response: the author agrees with both and claims consensus. -/
def c3response : ClaudeResponse :=
  ⟨[⟨"issue-1".toList, .agree, "r1".toList, "a1".toList⟩,
    ⟨"issue-2".toList, .agree, "r2".toList, "a2".toList⟩],
    "newdoc".toList, ⟨true, [], jnum1, "cs".toList⟩⟩

/-- C3 scenario consensus-check: the critical issue is inadequate, the major
one resolved. -/
def c3consensus : CodexConsensus :=
  ⟨.reject, [⟨"issue-1".toList, .inadequate, "c1".toList⟩,
    ⟨"issue-2".toList, .resolved, "c2".toList⟩], [], "cons".toList⟩

/-- C3 scenario store: round 1 fully persisted. -/
def c3store : Store :=
  ⟨none, updAt (fun _ => none) 1 c3review, updAt (fun _ => none) 1 c3response,
    updAt (fun _ => none) 1 c3consensus, updAt (fun _ => none) 1 "newdoc".toList,
    fun _ => false, none, none⟩

/-- C5 collision pair, first review: a single issue with description Aa. -/
def c5reviewA : CodexReview :=
  ⟨[⟨"issue-1".toList, .critical, "sec".toList, "Aa".toList, none⟩], [], "oa".toList⟩

/-- C5 collision pair, second review: the same single issue except the
description is BB. -/
def c5reviewB : CodexReview :=
  ⟨[⟨"issue-1".toList, .critical, "sec".toList, "BB".toList, none⟩], [], "oa".toList⟩

/-- C5 witness pair: two issues in one order. -/
def c5permA : CodexReview :=
  ⟨[⟨"issue-1".toList, .critical, "s".toList, "x".toList, none⟩,
    ⟨"issue-2".toList, .major, "t".toList, "y".toList, none⟩],
    [⟨"opp-1".toList, .high, "u".toList, "z".toList, none⟩], "oa".toList⟩

/-- C5 witness pair: the same issues in the other order. -/
def c5permB : CodexReview :=
  ⟨[⟨"issue-2".toList, .major, "t".toList, "y".toList, none⟩,
    ⟨"issue-1".toList, .critical, "s".toList, "x".toList, none⟩],
    [⟨"opp-1".toList, .high, "u".toList, "z".toList, none⟩], "oa".toList⟩

/-- C8 input: a response payload whose only defect is a missing
`action_taken` on its single response item. -/
def c8missingAction : Str :=
  ("\x7b\"responses\":[\x7b\"feedback_id\":\"issue-1\",\"verdict\":\"agree\",\"reasoning\":\"r\"\x7d],\"updated_document\":\"d\",\"consensus_assessment\":\x7b\"reached\":true,\"outstanding_disagreements\":[],\"confidence\":1,\"summary\":\"s\"\x7d\x7d").toList

/-- The repaired value of `c8missingAction`: the missing action becomes the
empty string. -/
def c8repaired1 : ClaudeResponse :=
  ⟨[⟨"issue-1".toList, .agree, "r".toList, []⟩], "d".toList, ⟨true, [], jnum1, "s".toList⟩⟩

/-- C8 input: a response payload whose `responses` field is a string, not a
list. -/
def c8badResponses : Str :=
  ("\x7b\"responses\":\"nope\",\"updated_document\":\"d\",\"consensus_assessment\":\x7b\"reached\":true,\"outstanding_disagreements\":[],\"confidence\":1,\"summary\":\"s\"\x7d\x7d").toList

/-- The repaired value of `c8badResponses`: the non-list collapses to an
empty response list, which the schema accepts. -/
def c8repaired2 : ClaudeResponse :=
  ⟨[], "d".toList, ⟨true, [], jnum1, "s".toList⟩⟩

/-- C1 scenario review: one critical issue. -/
def c1review : CodexReview :=
  ⟨[⟨"issue-1".toList, .critical, "sec".toList, "bad".toList, none⟩], [], "oa".toList⟩

/-- C1 scenario response: disagrees but self-reports consensus reached, which
makes the consensus check run. -/
def c1response : ClaudeResponse :=
  ⟨[⟨"issue-1".toList, .disagree, "no".toList, "none".toList⟩], "doc-v1".toList,
    ⟨true, [], jnum1, "cs".toList⟩⟩

/-- C1 scenario consensus-check: rejection, critical issue inadequate. -/
def c1consensus : CodexConsensus :=
  ⟨.reject, [⟨"issue-1".toList, .inadequate, "c".toList⟩], [], "cons".toList⟩

/-- C1 oracles. -/
def c1oracles : Oracles :=
  ⟨fun _ => .ok c1review, fun _ => .ok c1response, fun _ => .ok c1consensus⟩

/-- The C1 run: a fresh one-round session that ends with an unresolved
critical issue recorded in the persisted artifacts. -/
def c1run : Except Str RunResult × SessState × RunLog :=
  runModel c1oracles ⟨"input".toList, 1⟩ (freshSession 1)

/-- C9 oracles: the reviewer fails at every round. -/
def c9oracles : Oracles :=
  ⟨fun _ => .error "review exploded".toList,
    fun _ => .error "unused".toList, fun _ => .error "unused".toList⟩

/-- C10 review used both as the persisted round-1 artifact and as the round-2
oracle output. -/
def c10review : CodexReview :=
  ⟨[⟨"issue-1".toList, .major, "sec".toList, "same".toList, none⟩], [], "oa".toList⟩

/-- C10 initial state: round 1's review is persisted but its response is not,
so resume-point discovery lands mid-round at claude-response. -/
def c10state : SessState :=
  ⟨freshManifest 5, { freshStore 5 with reviews := updAt (fun _ => none) 1 c10review }⟩

/-- C10 oracles: the reviewer always returns the persisted content again; the
author replies without claiming consensus. -/
def c10oracles : Oracles :=
  ⟨fun _ => .ok c10review,
    fun _ => .ok ⟨[], "d2".toList, ⟨false, [], jnum1, "cs".toList⟩⟩,
    fun _ => .error "unused".toList⟩

/-- The C10 run: resumed mid-round, then stalemating on the first freshly
executed review. -/
def c10run : Except Str RunResult × SessState × RunLog :=
  runModel c10oracles ⟨"input".toList, 5⟩ c10state

/-- C4 witness review content. -/
def c4review : CodexReview :=
  ⟨[⟨"issue-1".toList, .minor, "sec".toList, "rep".toList, none⟩], [], "oa".toList⟩

/-- C4 witness oracles: the reviewer says the same thing in every round; the
author never claims consensus. -/
def c4oracles : Oracles :=
  ⟨fun _ => .ok c4review,
    fun _ => .ok ⟨[], "d".toList, ⟨false, [], jnum1, "cs".toList⟩⟩,
    fun _ => .error "unused".toList⟩

/-! ## Theorems -/

theorem stepPhase3_spec (o : Oracles) (round : Nat) (ph2 : Option Int)
    (resp : ClaudeResponse) (pv : RoundPhase) (doc2 : Str) (s : SessState) :
    ((∃ ls2, (stepPhase3 o round ph2 resp pv doc2 s).1 = .next ls2 ∧
        ls2.round = round + 1 ∧ ls2.phase = .pending ∧
        ls2.prevHash = ph2 ∧ ls2.doc = doc2 ∧
        ls2.sess.manifest.status = s.manifest.status) ∨
      (∃ res st, (stepPhase3 o round ph2 resp pv doc2 s).1 = .done res st ∧
        res.exitVia = .approve ∧ res.totalRounds = round) ∨
      (∃ msg st, (stepPhase3 o round ph2 resp pv doc2 s).1 = .failed msg st ∧
        st.manifest.status = s.manifest.status)) ∧
    (stepPhase3 o round ph2 resp pv doc2 s).2.codexCalls = [] ∧
    (stepPhase3 o round ph2 resp pv doc2 s).2.claudeCalls = [] := by
  unfold stepPhase3
  split
  · split
    · cases hcon : o.consensus round with
      | error e =>
        dsimp only
        exact ⟨Or.inr (Or.inr ⟨e, _, rfl, rfl⟩), rfl, rfl⟩
      | ok con =>
        dsimp only
        split
        · dsimp only
          exact ⟨Or.inr (Or.inl ⟨_, _, rfl, rfl, rfl⟩), rfl, rfl⟩
        · dsimp only
          exact ⟨Or.inl ⟨_, rfl, rfl, rfl, rfl, rfl, rfl⟩, rfl, rfl⟩
    · dsimp only
      exact ⟨Or.inl ⟨_, rfl, rfl, rfl, rfl, rfl, rfl⟩, rfl, rfl⟩
  · dsimp only
    exact ⟨Or.inl ⟨_, rfl, rfl, rfl, rfl, rfl, rfl⟩, rfl, rfl⟩

theorem stepPhase2_spec (o : Oracles) (round : Nat) (ph2 : Option Int)
    (pv : RoundPhase) (s : SessState) :
    ((∃ ls2, (stepPhase2 o round ph2 pv s).1 = .next ls2 ∧
        ls2.round = round + 1 ∧ ls2.phase = .pending ∧
        ls2.prevHash = ph2 ∧
        ls2.sess.manifest.status = s.manifest.status) ∨
      (∃ res st, (stepPhase2 o round ph2 pv s).1 = .done res st ∧
        res.exitVia = .approve ∧ res.totalRounds = round) ∨
      (∃ msg st, (stepPhase2 o round ph2 pv s).1 = .failed msg st ∧
        st.manifest.status = s.manifest.status)) ∧
    (stepPhase2 o round ph2 pv s).2.codexCalls = [] ∧
    ((stepPhase2 o round ph2 pv s).2.claudeCalls = [] ∨
      (stepPhase2 o round ph2 pv s).2.claudeCalls = [round]) := by
  unfold stepPhase2
  split
  · cases hresp : o.respond round with
    | error e =>
      dsimp only
      exact ⟨Or.inr (Or.inr ⟨e, _, rfl, rfl⟩), rfl, Or.inr rfl⟩
    | ok response =>
      dsimp only
      obtain ⟨hmain, hcodex, hclaude⟩ := stepPhase3_spec o round ph2 response
        .consensus_check response.updated_document
        (saveDocument (saveClaudeResponse (setPhase s .claude_response) round response)
          round response.updated_document)
      refine ⟨?_, hcodex, Or.inr ?_⟩
      · rcases hmain with ⟨ls2, h1, h2, h3, h4, h5, h6⟩ | ⟨res, st, h1, h2, h3⟩ |
          ⟨msg, st, h1, h2⟩
        · exact Or.inl ⟨ls2, h1, h2, h3, h4, h6⟩
        · exact Or.inr (Or.inl ⟨res, st, h1, h2, h3⟩)
        · exact Or.inr (Or.inr ⟨msg, st, h1, h2⟩)
      · show [round] ++ _ = [round]
        rw [hclaude]
        simp
  · cases hload : s.store.responses round with
    | none =>
      dsimp only
      exact ⟨Or.inr (Or.inr ⟨_, _, rfl, rfl⟩), rfl, Or.inl rfl⟩
    | some response =>
      dsimp only
      obtain ⟨hmain, hcodex, hclaude⟩ := stepPhase3_spec o round ph2 response
        pv response.updated_document
        (saveDocument s round response.updated_document)
      refine ⟨?_, hcodex, Or.inl hclaude⟩
      rcases hmain with ⟨ls2, h1, h2, h3, h4, h5, h6⟩ | ⟨res, st, h1, h2, h3⟩ |
          ⟨msg, st, h1, h2⟩
      · exact Or.inl ⟨ls2, h1, h2, h3, h4, h6⟩
      · exact Or.inr (Or.inl ⟨res, st, h1, h2, h3⟩)
      · exact Or.inr (Or.inr ⟨msg, st, h1, h2⟩)


theorem stepStalemate_spec (o : Oracles) (ls : LoopState) (review : CodexReview)
    (pv : RoundPhase) (s : SessState) :
    ((ls.prevHash = some (hashFeedback review) ∧
        (stepStalemate o ls review pv s).2 = RunLog.nil ∧
        ∃ st, (stepStalemate o ls review pv s).1 =
          .done ⟨.max_rounds_reached, 0, ls.doc, ls.round, .stalemate⟩ st) ∨
      (∃ ls2, (stepStalemate o ls review pv s).1 = .next ls2 ∧
        ls2.round = ls.round + 1 ∧ ls2.phase = .pending ∧
        ls2.prevHash = some (hashFeedback review) ∧
        ls2.sess.manifest.status = s.manifest.status) ∨
      (∃ res st, (stepStalemate o ls review pv s).1 = .done res st ∧
        res.exitVia = .approve ∧ res.totalRounds = ls.round) ∨
      (∃ msg st, (stepStalemate o ls review pv s).1 = .failed msg st ∧
        st.manifest.status = s.manifest.status)) ∧
    (stepStalemate o ls review pv s).2.codexCalls = [] ∧
    ((stepStalemate o ls review pv s).2.claudeCalls = [] ∨
      (stepStalemate o ls review pv s).2.claudeCalls = [ls.round]) := by
  unfold stepStalemate
  dsimp only
  split
  · rename_i hprev
    dsimp only
    exact ⟨Or.inl ⟨hprev, rfl, _, rfl⟩, rfl, Or.inl rfl⟩
  · obtain ⟨hmain, hcodex, hclaude⟩ :=
      stepPhase2_spec o ls.round (some (hashFeedback review)) pv s
    refine ⟨?_, hcodex, hclaude⟩
    rcases hmain with ⟨ls2, h1, h2, h3, h4, h5⟩ | ⟨res, st, h1, h2, h3⟩ | ⟨msg, st, h1, h2⟩
    · exact Or.inr (Or.inl ⟨ls2, h1, h2, h3, h4, h5⟩)
    · exact Or.inr (Or.inr (Or.inl ⟨res, st, h1, h2, h3⟩))
    · exact Or.inr (Or.inr (Or.inr ⟨msg, st, h1, h2⟩))

theorem roundStep_spec (o : Oracles) (ls : LoopState) :
    ((∃ rv st, reviewTaken o ls rv ∧ ls.prevHash = some (hashFeedback rv) ∧
        (roundStep o ls).2.claudeCalls = [] ∧
        (roundStep o ls).1 =
          .done ⟨.max_rounds_reached, 0, ls.doc, ls.round, .stalemate⟩ st) ∨
      (∃ rv ls2, reviewTaken o ls rv ∧ (roundStep o ls).1 = .next ls2 ∧
        ls2.round = ls.round + 1 ∧ ls2.phase = .pending ∧
        ls2.prevHash = some (hashFeedback rv) ∧
        ls2.sess.manifest.status = ls.sess.manifest.status) ∨
      (∃ res st, (roundStep o ls).1 = .done res st ∧
        res.exitVia = .approve ∧ res.totalRounds = ls.round) ∨
      (∃ msg st, (roundStep o ls).1 = .failed msg st ∧
        st.manifest.status = ls.sess.manifest.status)) ∧
    ((roundStep o ls).2.codexCalls = [] ∨ (roundStep o ls).2.codexCalls = [ls.round]) ∧
    ((roundStep o ls).2.claudeCalls = [] ∨ (roundStep o ls).2.claudeCalls = [ls.round]) ∧
    (¬invokesReview ls → (roundStep o ls).2.codexCalls = []) := by
  unfold roundStep
  split
  · rename_i hphase
    cases hrev : o.review ls.round with
    | error e =>
      dsimp only
      exact ⟨Or.inr (Or.inr (Or.inr ⟨e, _, rfl, rfl⟩)), Or.inr rfl, Or.inl rfl,
        fun hn => absurd hphase hn⟩
    | ok rv =>
      dsimp only
      obtain ⟨hmain, hcodex, hclaude⟩ := stepStalemate_spec o ls rv .claude_response
        (saveCodexReview (setPhase (startRound ls.sess ls.round) .codex_review) ls.round rv)
      have hcodexlog : ([ls.round] ++
          (stepStalemate o ls rv .claude_response
            (saveCodexReview (setPhase (startRound ls.sess ls.round) .codex_review)
              ls.round rv)).2.codexCalls) = [ls.round] := by
        rw [hcodex]
        simp
      refine ⟨?_, Or.inr hcodexlog, hclaude,
        fun hn => absurd (show invokesReview ls from hphase) hn⟩
      have htaken : reviewTaken o ls rv :=
        Or.inl ⟨show invokesReview ls from hphase, hrev⟩
      rcases hmain with ⟨hprev, hnil, st, h1⟩ | ⟨ls2, h1, h2, h3, h4, h5⟩ |
        ⟨res, st, h1, h2, h3⟩ | ⟨msg, st, h1, h2⟩
      · refine Or.inl ⟨rv, st, htaken, hprev, ?_, h1⟩
        show [] ++ _ = []
        rw [hnil]
        rfl
      · exact Or.inr (Or.inl ⟨rv, ls2, htaken, h1, h2, h3, h4, h5⟩)
      · exact Or.inr (Or.inr (Or.inl ⟨res, st, h1, h2, h3⟩))
      · exact Or.inr (Or.inr (Or.inr ⟨msg, st, h1, h2⟩))
  · rename_i hnophase
    cases hload : (startRound ls.sess ls.round).store.reviews ls.round with
    | none =>
      simp only [hload]
      exact ⟨Or.inr (Or.inr (Or.inr ⟨_, _, rfl, rfl⟩)), Or.inl rfl, Or.inl rfl,
        fun _ => rfl⟩
    | some rv =>
      simp only [hload]
      obtain ⟨hmain, hcodex, hclaude⟩ := stepStalemate_spec o ls rv ls.phase
        (startRound ls.sess ls.round)
      have htaken : reviewTaken o ls rv :=
        Or.inr ⟨show ¬invokesReview ls from hnophase,
          show ls.sess.store.reviews ls.round = some rv from hload⟩
      refine ⟨?_, Or.inl hcodex, hclaude, fun _ => hcodex⟩
      rcases hmain with ⟨hprev, hnil, st, h1⟩ | ⟨ls2, h1, h2, h3, h4, h5⟩ |
        ⟨res, st, h1, h2, h3⟩ | ⟨msg, st, h1, h2⟩
      · refine Or.inl ⟨rv, st, htaken, hprev, ?_, h1⟩
        show (stepStalemate o ls rv ls.phase (startRound ls.sess ls.round)).2.claudeCalls = []
        rw [hnil]
        rfl
      · exact Or.inr (Or.inl ⟨rv, ls2, htaken, h1, h2, h3, h4, h5⟩)
      · exact Or.inr (Or.inr (Or.inl ⟨res, st, h1, h2, h3⟩))
      · exact Or.inr (Or.inr (Or.inr ⟨msg, st, h1, h2⟩))


theorem loopModel_zero (o : Oracles) (ls : LoopState) :
    loopModel o 0 ls =
      (.ok ⟨determineMaxRoundsStatus ls.sess,
          statusToExitCode (determineMaxRoundsStatus ls.sess), ls.doc, ls.round - 1,
          .maxRounds⟩,
        (terminateRun (determineMaxRoundsStatus ls.sess) (ls.round - 1) ls.doc ls.sess
          .maxRounds).2,
        RunLog.nil) := rfl

theorem loopModel_succ_done {o : Oracles} {ls : LoopState} {res : RunResult}
    {st : SessState} (fuel : Nat) (h : (roundStep o ls).1 = .done res st) :
    loopModel o (fuel + 1) ls = (.ok res, st, (roundStep o ls).2) := by
  have heta : roundStep o ls = ((roundStep o ls).1, (roundStep o ls).2) := rfl
  have heq : roundStep o ls = (.done res st, (roundStep o ls).2) := by rw [heta, h]
  show (match roundStep o ls with
    | (.done res st, lg) => (Except.ok res, st, lg)
    | (.failed msg st, lg) => (Except.error msg, st, lg)
    | (.next ls2, lg) =>
      let r := loopModel o fuel ls2
      (r.1, r.2.1, lg.append r.2.2)) = (.ok res, st, (roundStep o ls).2)
  rw [heq]

theorem loopModel_succ_failed {o : Oracles} {ls : LoopState} {msg : Str}
    {st : SessState} (fuel : Nat) (h : (roundStep o ls).1 = .failed msg st) :
    loopModel o (fuel + 1) ls = (.error msg, st, (roundStep o ls).2) := by
  have heta : roundStep o ls = ((roundStep o ls).1, (roundStep o ls).2) := rfl
  have heq : roundStep o ls = (.failed msg st, (roundStep o ls).2) := by rw [heta, h]
  show (match roundStep o ls with
    | (.done res st, lg) => (Except.ok res, st, lg)
    | (.failed msg st, lg) => (Except.error msg, st, lg)
    | (.next ls2, lg) =>
      let r := loopModel o fuel ls2
      (r.1, r.2.1, lg.append r.2.2)) = (.error msg, st, (roundStep o ls).2)
  rw [heq]

theorem loopModel_succ_next {o : Oracles} {ls ls2 : LoopState}
    (fuel : Nat) (h : (roundStep o ls).1 = .next ls2) :
    loopModel o (fuel + 1) ls =
      ((loopModel o fuel ls2).1, (loopModel o fuel ls2).2.1,
        (roundStep o ls).2.append (loopModel o fuel ls2).2.2) := by
  have heta : roundStep o ls = ((roundStep o ls).1, (roundStep o ls).2) := rfl
  have heq : roundStep o ls = (.next ls2, (roundStep o ls).2) := by rw [heta, h]
  show (match roundStep o ls with
    | (.done res st, lg) => (Except.ok res, st, lg)
    | (.failed msg st, lg) => (Except.error msg, st, lg)
    | (.next ls2, lg) =>
      let r := loopModel o fuel ls2
      (r.1, r.2.1, lg.append r.2.2)) = _
  rw [heq]


theorem stalemate_exit_ge (o : Oracles) :
    ∀ (fuel : Nat) (ls : LoopState) (res : RunResult),
      (loopModel o fuel ls).1 = .ok res → res.exitVia = .stalemate →
      ls.round ≤ res.totalRounds := by
  intro fuel
  induction fuel with
  | zero =>
    intro ls res hok hvia
    rw [loopModel_zero] at hok
    cases hok
    simp at hvia
  | succ fuel ih =>
    intro ls res hok hvia
    obtain ⟨hmain, -, -, -⟩ := roundStep_spec o ls
    rcases hmain with ⟨rv, st, htaken, hprev, hcl, h1⟩ | ⟨rv, ls2, htaken, h1, h2, h3, h4, h5⟩ |
      ⟨res2, st, h1, h2, h3⟩ | ⟨msg, st, h1, h2⟩
    · rw [loopModel_succ_done fuel h1] at hok
      cases hok
      exact le_refl _
    · rw [loopModel_succ_next fuel h1] at hok
      have := ih ls2 res hok hvia
      omega
    · rw [loopModel_succ_done fuel h1] at hok
      cases hok
      rw [h2] at hvia
      simp at hvia
    · rw [loopModel_succ_failed fuel h1] at hok
      cases hok

theorem stalemate_not_first (o : Oracles) (fuel : Nat) (ls : LoopState) (res : RunResult)
    (hnone : ls.prevHash = none)
    (hok : (loopModel o fuel ls).1 = .ok res) (hvia : res.exitVia = .stalemate) :
    ls.round < res.totalRounds := by
  cases fuel with
  | zero =>
    rw [loopModel_zero] at hok
    cases hok
    simp at hvia
  | succ fuel =>
    obtain ⟨hmain, -, -, -⟩ := roundStep_spec o ls
    rcases hmain with ⟨rv, st, htaken, hprev, hcl, h1⟩ | ⟨rv, ls2, htaken, h1, h2, h3, h4, h5⟩ |
      ⟨res2, st, h1, h2, h3⟩ | ⟨msg, st, h1, h2⟩
    · rw [hnone] at hprev
      cases hprev
    · rw [loopModel_succ_next fuel h1] at hok
      have := stalemate_exit_ge o fuel ls2 res hok hvia
      omega
    · rw [loopModel_succ_done fuel h1] at hok
      cases hok
      rw [h2] at hvia
      simp at hvia
    · rw [loopModel_succ_failed fuel h1] at hok
      cases hok

theorem loop_error_status (o : Oracles) :
    ∀ (fuel : Nat) (ls : LoopState) (msg : Str),
      (loopModel o fuel ls).1 = .error msg →
      (loopModel o fuel ls).2.1.manifest.status = ls.sess.manifest.status := by
  intro fuel
  induction fuel with
  | zero =>
    intro ls msg herr
    rw [loopModel_zero] at herr
    cases herr
  | succ fuel ih =>
    intro ls msg herr
    obtain ⟨hmain, -, -, -⟩ := roundStep_spec o ls
    rcases hmain with ⟨rv, st, htaken, hprev, hcl, h1⟩ | ⟨rv, ls2, htaken, h1, h2, h3, h4, h5⟩ |
      ⟨res2, st, h1, h2, h3⟩ | ⟨msg2, st, h1, h2⟩
    · rw [loopModel_succ_done fuel h1] at herr ⊢
      cases herr
    · rw [loopModel_succ_next fuel h1] at herr ⊢
      rw [ih ls2 msg herr, h5]
    · rw [loopModel_succ_done fuel h1] at herr ⊢
      cases herr
    · rw [loopModel_succ_failed fuel h1] at herr ⊢
      cases herr
      exact h2


theorem loop_log_codex_lb (o : Oracles) :
    ∀ (fuel : Nat) (ls : LoopState) (m : Nat),
      m ∈ (loopModel o fuel ls).2.2.codexCalls → ls.round ≤ m := by
  intro fuel
  induction fuel with
  | zero =>
    intro ls m hm
    rw [loopModel_zero] at hm
    simp [RunLog.nil] at hm
  | succ fuel ih =>
    intro ls m hm
    obtain ⟨hmain, hcodex, -, -⟩ := roundStep_spec o ls
    have hstep : ∀ k, k ∈ (roundStep o ls).2.codexCalls → k = ls.round := by
      intro k hk
      rcases hcodex with hc | hc <;> rw [hc] at hk <;> simp at hk
      exact hk
    rcases hmain with ⟨rv, st, htaken, hprev, hcl, h1⟩ | ⟨rv, ls2, htaken, h1, h2, h3, h4, h5⟩ |
      ⟨res2, st, h1, h2, h3⟩ | ⟨msg, st, h1, h2⟩
    · rw [loopModel_succ_done fuel h1] at hm
      exact le_of_eq (hstep m hm).symm
    · rw [loopModel_succ_next fuel h1] at hm
      simp only [RunLog.append] at hm
      rcases List.mem_append.mp hm with hm1 | hm2
      · exact le_of_eq (hstep m hm1).symm
      · have := ih ls2 m hm2
        omega
    · rw [loopModel_succ_done fuel h1] at hm
      exact le_of_eq (hstep m hm).symm
    · rw [loopModel_succ_failed fuel h1] at hm
      exact le_of_eq (hstep m hm).symm

theorem roundStep_stalemate_eq (o : Oracles) (ls : LoopState) (rv : CodexReview)
    (hinv : invokesReview ls) (hrev : o.review ls.round = .ok rv)
    (hprev : ls.prevHash = some (hashFeedback rv)) :
    ∃ st, roundStep o ls =
      (.done ⟨.max_rounds_reached, 0, ls.doc, ls.round, .stalemate⟩ st,
        ⟨[ls.round], [], []⟩) := by
  unfold roundStep
  rw [if_pos (show ls.phase = .codex_review ∨ ls.phase = .pending from hinv), hrev]
  dsimp only
  unfold stepStalemate
  dsimp only
  rw [if_pos hprev]
  exact ⟨_, rfl⟩


theorem c4_loop (o : Oracles) (N : Nat) (rN rN1 : CodexReview)
    (hN : o.review N = .ok rN) (hN1 : o.review (N + 1) = .ok rN1)
    (hh : hashFeedback rN = hashFeedback rN1) :
    ∀ (fuel : Nat) (ls : LoopState), ls.round ≤ N →
      N ∈ (loopModel o fuel ls).2.2.codexCalls →
      (N + 1) ∈ (loopModel o fuel ls).2.2.codexCalls →
      ∃ res, (loopModel o fuel ls).1 = .ok res ∧
        res.status = .max_rounds_reached ∧ res.exitCode = 0 ∧
        res.totalRounds = N + 1 ∧ res.exitVia = .stalemate ∧
        (N + 1) ∉ (loopModel o fuel ls).2.2.claudeCalls := by
  intro fuel
  induction fuel with
  | zero =>
    intro ls hle hmN hmN1
    rw [loopModel_zero] at hmN
    simp [RunLog.nil] at hmN
  | succ fuel ih =>
    intro ls hle hmN hmN1
    obtain ⟨hmain, hcodex, hclaude, hnoinv⟩ := roundStep_spec o ls
    have hstepc : ∀ k, k ∈ (roundStep o ls).2.codexCalls → k = ls.round := by
      intro k hk
      rcases hcodex with hc | hc <;> rw [hc] at hk <;> simp at hk
      exact hk
    have hstepl : ∀ k, k ∈ (roundStep o ls).2.claudeCalls → k = ls.round := by
      intro k hk
      rcases hclaude with hc | hc <;> rw [hc] at hk <;> simp at hk
      exact hk
    rcases hmain with ⟨rv, st, htaken, hprev, hcl, h1⟩ | ⟨rv, ls2, htaken, h1, h2, h3, h4, h5⟩ |
      ⟨res2, st, h1, h2, h3⟩ | ⟨msg, st, h1, h2⟩
    · rw [loopModel_succ_done fuel h1] at hmN1
      have := hstepc _ hmN1
      omega
    · rw [loopModel_succ_next fuel h1] at hmN hmN1 ⊢
      simp only [RunLog.append] at hmN hmN1 ⊢
      have hmN1rec : (N + 1) ∈ (loopModel o fuel ls2).2.2.codexCalls := by
        rcases List.mem_append.mp hmN1 with hx | hx
        · have := hstepc _ hx
          omega
        · exact hx
      by_cases heq : ls.round = N
      · -- this iteration runs round N; the next one stalemates
        have hmNstep : N ∈ (roundStep o ls).2.codexCalls := by
          rcases List.mem_append.mp hmN with hx | hx
          · exact hx
          · have := loop_log_codex_lb o fuel ls2 N hx
            omega
        have hinv : invokesReview ls := by
          by_contra hno
          rw [hnoinv hno] at hmNstep
          simp at hmNstep
        have hrv : rv = rN := by
          rcases htaken with ⟨-, hok⟩ | ⟨hni, -⟩
          · rw [heq] at hok
            rw [hok] at hN
            exact (Except.ok.injEq _ _ ).mp hN
          · exact absurd hinv hni
        cases fuel with
        | zero =>
          rw [loopModel_zero] at hmN1rec
          simp [RunLog.nil] at hmN1rec
        | succ f =>
          have hinv2 : invokesReview ls2 := Or.inr h3
          have hrev2 : o.review ls2.round = .ok rN1 := by
            rw [h2, heq]
            exact hN1
          have hprev2 : ls2.prevHash = some (hashFeedback rN1) := by
            rw [h4, hrv, hh]
          obtain ⟨st', hsteq⟩ := roundStep_stalemate_eq o ls2 rN1 hinv2 hrev2 hprev2
          have hfst : (roundStep o ls2).1 =
              .done ⟨.max_rounds_reached, 0, ls2.doc, ls2.round, .stalemate⟩ st' := by
            rw [hsteq]
          have hsnd : (roundStep o ls2).2 = ⟨[ls2.round], [], []⟩ := by
            rw [hsteq]
          rw [loopModel_succ_done f hfst]
          refine ⟨_, rfl, rfl, rfl, ?_, rfl, ?_⟩
          · rw [h2, heq]
          · rw [hsnd]
            intro hmem
            rcases List.mem_append.mp hmem with hx | hx
            · have := hstepl _ hx
              omega
            · simp at hx
      · -- the run has not yet reached round N
        have hlt : ls.round < N := lt_of_le_of_ne hle heq
        have hmNrec : N ∈ (loopModel o fuel ls2).2.2.codexCalls := by
          rcases List.mem_append.mp hmN with hx | hx
          · have := hstepc _ hx
            omega
          · exact hx
        obtain ⟨res, hres1, hres2, hres3, hres4, hres5, hres6⟩ :=
          ih ls2 (by omega) hmNrec hmN1rec
        refine ⟨res, hres1, hres2, hres3, hres4, hres5, ?_⟩
        intro hmem
        rcases List.mem_append.mp hmem with hx | hx
        · have := hstepl _ hx
          omega
        · exact hres6 hx
    · rw [loopModel_succ_done fuel h1] at hmN1
      have := hstepc _ hmN1
      omega
    · rw [loopModel_succ_failed fuel h1] at hmN1
      have := hstepc _ hmN1
      omega


/-- First-truthy-wins equivalence of the candidate chain, for any primary
candidate and optional fence/brace candidates. -/
theorem chain_eq (p : Str) (fo bo : Option Str) :
    (let parsed0 := tryParseJson p
     let parsed1 :=
       if jsTruthy parsed0 then parsed0
       else
         match fo with
         | some f => if f.isEmpty then parsed0 else tryParseJson f
         | none => parsed0
     let parsed2 :=
       if jsTruthy parsed1 then parsed1
       else
         match bo with
         | some b => if b.isEmpty then parsed1 else tryParseJson b
         | none => parsed1
     parsed2) =
    firstTruthyParse (p ::
      ((match fo with
        | some f => if f.isEmpty then [] else [f]
        | none => []) ++
       (match bo with
        | some b => if b.isEmpty then [] else [b]
        | none => []))) := by
  cases fo with
  | none =>
    cases bo with
    | none => simp [firstTruthyParse]
    | some b =>
      by_cases hbe : b.isEmpty <;> by_cases h0 : jsTruthy (tryParseJson p) <;>
        simp [hbe, h0, firstTruthyParse]
  | some f =>
    by_cases hfe : f.isEmpty
    · cases bo with
      | none => simp [hfe, firstTruthyParse]
      | some b =>
        by_cases hbe : b.isEmpty <;> by_cases h0 : jsTruthy (tryParseJson p) <;>
          simp [hfe, hbe, h0, firstTruthyParse]
    · cases bo with
      | none =>
        by_cases h0 : jsTruthy (tryParseJson p) <;> simp [hfe, h0, firstTruthyParse]
      | some b =>
        by_cases hbe : b.isEmpty <;> by_cases h0 : jsTruthy (tryParseJson p) <;>
          by_cases h1 : jsTruthy (tryParseJson f) <;>
            simp [hfe, hbe, h0, h1, firstTruthyParse]

/-- Sorting issues by the comparator key and mapping to the key is invariant
under permutation of the input. -/
theorem map_sortKeyI_perm {l1 l2 : List Issue} (h : l1.Perm l2) :
    (List.insertionSort issueLe l1).map sortKeyI =
      (List.insertionSort issueLe l2).map sortKeyI := by
  have hperm : ((List.insertionSort issueLe l1).map sortKeyI).Perm
      ((List.insertionSort issueLe l2).map sortKeyI) :=
    ((List.perm_insertionSort issueLe l1).map sortKeyI).trans
      ((h.map sortKeyI).trans ((List.perm_insertionSort issueLe l2).map sortKeyI).symm)
  have hs1 : List.Sorted (· ≤ ·) ((List.insertionSort issueLe l1).map sortKeyI) :=
    List.Pairwise.map sortKeyI (fun a b hab => hab) (List.sorted_insertionSort issueLe l1)
  have hs2 : List.Sorted (· ≤ ·) ((List.insertionSort issueLe l2).map sortKeyI) :=
    List.Pairwise.map sortKeyI (fun a b hab => hab) (List.sorted_insertionSort issueLe l2)
  exact List.eq_of_perm_of_sorted hperm hs1 hs2

/-- Sorting opportunities by the comparator key and mapping to the key is
invariant under permutation of the input. -/
theorem map_sortKeyO_perm {l1 l2 : List Opportunity} (h : l1.Perm l2) :
    (List.insertionSort oppLe l1).map sortKeyO =
      (List.insertionSort oppLe l2).map sortKeyO := by
  have hperm : ((List.insertionSort oppLe l1).map sortKeyO).Perm
      ((List.insertionSort oppLe l2).map sortKeyO) :=
    ((List.perm_insertionSort oppLe l1).map sortKeyO).trans
      ((h.map sortKeyO).trans ((List.perm_insertionSort oppLe l2).map sortKeyO).symm)
  have hs1 : List.Sorted (· ≤ ·) ((List.insertionSort oppLe l1).map sortKeyO) :=
    List.Pairwise.map sortKeyO (fun a b hab => hab) (List.sorted_insertionSort oppLe l1)
  have hs2 : List.Sorted (· ≤ ·) ((List.insertionSort oppLe l2).map sortKeyO) :=
    List.Pairwise.map sortKeyO (fun a b hab => hab) (List.sorted_insertionSort oppLe l2)
  exact List.eq_of_perm_of_sorted hperm hs1 hs2

/-- An id cannot carry both the opportunity and the issue prefix. -/
theorem opp_issue_disjoint (id : Str) (h1 : "opp-".toList.isPrefixOf id = true)
    (h2 : "issue-".toList.isPrefixOf id = true) : False := by
  rw [List.isPrefixOf_iff_prefix] at h1 h2
  obtain ⟨t1, e1⟩ := h1
  obtain ⟨t2, e2⟩ := h2
  have ho : id.head? = some 'o' := by rw [← e1]; rfl
  have hi : id.head? = some 'i' := by rw [← e2]; rfl
  rw [ho] at hi
  simp at hi

/-- The issues-resolved contribution of one response item in a round without a
consensus-check. -/
theorem respStep_false_resolved (a : SessionStatistics) (r : FeedbackResponse) :
    (respStep false a r).issues_resolved = a.issues_resolved +
      (if isAgreedIssue r then 1 else 0) := by
  unfold respStep
  split
  · rename_i hopp
    have hfalse : isAgreedIssue r = false := by
      unfold isAgreedIssue
      cases hiss : "issue-".toList.isPrefixOf r.feedback_id
      · simp
      · exact (opp_issue_disjoint _ hopp hiss).elim
    rw [hfalse]
    cases r.verdict <;> rfl
  · split
    · rename_i h1 hcond
      obtain ⟨-, hiss⟩ := hcond
      cases hv : r.verdict with
      | agree =>
        have htrue : isAgreedIssue r = true := by
          unfold isAgreedIssue
          rw [hiss, hv]
          rfl
        rw [htrue]
        rfl
      | disagree =>
        have hfalse : isAgreedIssue r = false := by
          unfold isAgreedIssue
          rw [hiss, hv]
          rfl
        rw [hfalse]
        rfl
      | partialV =>
        have hfalse : isAgreedIssue r = false := by
          unfold isAgreedIssue
          rw [hiss, hv]
          rfl
        rw [hfalse]
        rfl
    · rename_i h1 h2
      have hiss : "issue-".toList.isPrefixOf r.feedback_id = false := by
        cases hiss : "issue-".toList.isPrefixOf r.feedback_id
        · rfl
        · exact absurd ⟨rfl, hiss⟩ h2
      have hfalse : isAgreedIssue r = false := by
        unfold isAgreedIssue
        rw [hiss]
        rfl
      rw [hfalse]
      rfl

/-- The response loop of a round without a consensus-check counts agreed
issue-prefixed items into issues-resolved. -/
theorem foldl_respStep_false (rs : List FeedbackResponse) (a : SessionStatistics) :
    (rs.foldl (respStep false) a).issues_resolved =
      a.issues_resolved + rs.countP isAgreedIssue := by
  induction rs generalizing a with
  | nil => rfl
  | cons r rest ih =>
    rw [List.foldl_cons, ih, respStep_false_resolved, List.countP_cons]
    cases isAgreedIssue r
    · simp
    · simp
      omega

/-- The response loop of a round with a consensus-check never touches
issues-resolved. -/
theorem foldl_respStep_true (rs : List FeedbackResponse) (a : SessionStatistics) :
    (rs.foldl (respStep true) a).issues_resolved = a.issues_resolved := by
  induction rs generalizing a with
  | nil => rfl
  | cons r rest ih =>
    rw [List.foldl_cons, ih]
    unfold respStep
    split
    · cases r.verdict <;> rfl
    · split
      · rename_i hc
        exact absurd hc.1 (by decide)
      · rfl

/-- The issues-resolved contribution of one consensus resolution. -/
theorem conStep_resolved (issues : List Issue) (a : SessionStatistics)
    (r : FeedbackResolution) :
    (conStep issues a r).issues_resolved = a.issues_resolved +
      (if isSettled r then 1 else 0) := by
  cases hs : r.resolution_status with
  | resolved => simp [conStep, hs, isSettled]
  | validly_disputed => simp [conStep, hs, isSettled]
  | inadequate =>
    simp only [conStep, hs, isSettled]
    split <;> split <;> simp
  | new_issues => simp [conStep, hs, isSettled]

/-- The consensus loop counts settled resolutions into issues-resolved. -/
theorem foldl_conStep (issues : List Issue) (frs : List FeedbackResolution)
    (a : SessionStatistics) :
    (frs.foldl (conStep issues) a).issues_resolved =
      a.issues_resolved + frs.countP isSettled := by
  induction frs generalizing a with
  | nil => rfl
  | cons r rest ih =>
    rw [List.foldl_cons, ih, conStep_resolved, List.countP_cons]
    cases isSettled r
    · simp
    · simp
      omega

/-- The new-issue loop never touches issues-resolved. -/
theorem foldl_newIssueStep (issues : List Issue) (a : SessionStatistics) :
    (issues.foldl newIssueStep a).issues_resolved = a.issues_resolved := by
  induction issues generalizing a with
  | nil => rfl
  | cons i rest ih =>
    rw [List.foldl_cons, ih]
    unfold newIssueStep
    split <;> split <;> rfl

/-- The issues-resolved contribution of one whole round, provided a persisted
consensus-check implies a persisted review (true of every store the system
writes, since the review is saved before the consensus-check). -/
theorem statsRound_resolved (store : Store) (round : Nat) (a : SessionStatistics)
    (hwf : (store.consensi round).isSome → (store.reviews round).isSome) :
    (statsRound store a round).issues_resolved = a.issues_resolved +
      (match store.consensi round with
       | some con => con.feedback_responses.countP isSettled
       | none =>
         match store.responses round with
         | some resp => resp.responses.countP isAgreedIssue
         | none => 0) := by
  cases hc : store.consensi round with
  | some con =>
    have hrv : (store.reviews round).isSome := hwf (by rw [hc]; rfl)
    cases hr : store.reviews round with
    | none => rw [hr] at hrv; simp at hrv
    | some rv =>
      cases hresp : store.responses round with
      | none =>
        simp only [statsRound, hc, hr, hresp, Option.isSome]
        split
        · rename_i hlen
          rw [foldl_newIssueStep]
          show (List.foldl (conStep rv.issues) _ con.feedback_responses).issues_resolved + 0 =
            _ + _
          rw [foldl_conStep]
          rfl
        · rw [foldl_conStep]
      | some resp =>
        simp only [statsRound, hc, hr, hresp, Option.isSome]
        have hresp2 : ∀ b : SessionStatistics,
            (if resp.consensus_assessment.reached then
              { b with consensus_reached := true } else b).issues_resolved =
            b.issues_resolved := by
          intro b
          split <;> rfl
        split
        · rename_i hlen
          rw [foldl_newIssueStep]
          show (List.foldl (conStep rv.issues) _ con.feedback_responses).issues_resolved + 0 = _ + _
          rw [foldl_conStep, hresp2, foldl_respStep_true]
          rfl
        · rw [foldl_conStep, hresp2, foldl_respStep_true]
  | none =>
    cases hr : store.reviews round with
    | none =>
      cases hresp : store.responses round with
      | none => simp [statsRound, hc, hr, hresp]
      | some resp =>
        simp only [statsRound, hc, hr, hresp, Option.isSome]
        have hresp2 : ∀ b : SessionStatistics,
            (if resp.consensus_assessment.reached then
              { b with consensus_reached := true } else b).issues_resolved =
            b.issues_resolved := by
          intro b
          split <;> rfl
        rw [hresp2, foldl_respStep_false]
    | some rv =>
      cases hresp : store.responses round with
      | none => simp [statsRound, hc, hr, hresp]
      | some resp =>
        simp only [statsRound, hc, hr, hresp, Option.isSome]
        have hresp2 : ∀ b : SessionStatistics,
            (if resp.consensus_assessment.reached then
              { b with consensus_reached := true } else b).issues_resolved =
            b.issues_resolved := by
          intro b
          split <;> rfl
        rw [hresp2, foldl_respStep_false]

/-- Recomputed issues-resolved equals the specification's counting rule. -/
theorem computeStatistics_resolved (store : Store) (n : Nat)
    (hwf : ∀ r, (store.consensi r).isSome → (store.reviews r).isSome) :
    (computeStatistics store n).issues_resolved = issuesResolvedRule store n := by
  unfold computeStatistics issuesResolvedRule
  have h : ∀ (l : List Nat) (a : SessionStatistics),
      (l.foldl (statsRound store) a).issues_resolved =
        a.issues_resolved + (l.map (fun round =>
          match store.consensi round with
          | some con => con.feedback_responses.countP isSettled
          | none =>
            match store.responses round with
            | some resp => resp.responses.countP isAgreedIssue
            | none => 0)).sum := by
    intro l
    induction l with
    | nil => intro a; simp
    | cons r rest ih =>
      intro a
      rw [List.foldl_cons, ih, statsRound_resolved store r a (hwf r), List.map_cons,
        List.sum_cons]
      omega
  rw [h]
  simp [initialStatistics]


/-! ## The claims -/

/-- Comparison helper: a failed strict comparison yields the reversed
non-strict one. -/
theorem jnum_leb_of_not_ltb {a b : JNum} (h : ¬ JNum.ltb a b = true) :
    JNum.leb b a = true := by
  unfold JNum.ltb at h
  simp at h
  exact h

/-- The clamping arm of the confidence repair always lands in `[0, 1]`. -/
theorem jnum_clamp_mem (nv : JsNumV) :
    JNum.leb jnum0 (match nv with
      | .nan => jnum0
      | .negInf => jnum0
      | .posInf => jnum1
      | .val q => if JNum.ltb q jnum0 then jnum0
          else if JNum.ltb jnum1 q then jnum1 else q) = true ∧
    JNum.leb (match nv with
      | .nan => jnum0
      | .negInf => jnum0
      | .posInf => jnum1
      | .val q => if JNum.ltb q jnum0 then jnum0
          else if JNum.ltb jnum1 q then jnum1 else q) jnum1 = true := by
  cases nv with
  | nan => exact ⟨by decide, by decide⟩
  | negInf => exact ⟨by decide, by decide⟩
  | posInf => exact ⟨by decide, by decide⟩
  | val q =>
    dsimp only
    by_cases h1 : JNum.ltb q jnum0 = true
    · rw [if_pos h1]
      exact ⟨by decide, by decide⟩
    · rw [if_neg h1]
      by_cases h2 : JNum.ltb jnum1 q = true
      · rw [if_pos h2]
        exact ⟨by decide, by decide⟩
      · rw [if_neg h2]
        exact ⟨jnum_leb_of_not_ltb h1, jnum_leb_of_not_ltb h2⟩

set_option maxRecDepth 40000 in
/-- C1: REFUTED (code bug).  A fresh one-round session ends with a persisted
unresolved critical issue — recomputing the statistics from the store yields
`critical_unresolved = 1`, and grading from the final (recomputed) statistics
would give `max_rounds_reached_unsafeV` with exit code 2 — yet the run returns
status `max_rounds_reached` with exit code 0, because the grading reads the
in-memory statistics, which are still the initial zeros at that moment. -/
theorem c1_max_rounds_status_stale_statistics :
    c1run.1 = .ok ⟨.max_rounds_reached, 0, "doc-v1".toList, 1, .maxRounds⟩ ∧
    computeStatistics c1run.2.1.store 1 = c1run.2.1.manifest.statistics ∧
    c1run.2.1.manifest.statistics.critical_unresolved = 1 ∧
    determineMaxRoundsStatus c1run.2.1 = .max_rounds_reached_unsafeV ∧
    statusToExitCode .max_rounds_reached_unsafeV = 2 :=
  ⟨rfl, rfl, rfl, rfl, rfl⟩

/-- C2: resume-point discovery returns exactly the result of existence checks
in the fixed order document, response, review, and leaves the session state
unchanged. -/
theorem c2_resume_point_discovery (s : SessState) :
    findResumePointSt s = (s, resumePointSpec s) := rfl

/-- C3: whenever every persisted consensus-check has its round's review
persisted too (true of every store the system writes), the recomputed
`issues_resolved` equals the claim's counting rule, and the claim's concrete
scenario yields `critical_unresolved = 1`, `major_unresolved = 0`,
`issues_resolved = 1`. -/
theorem c3_statistics_recomputation (store : Store) (n : Nat)
    (hwf : ∀ r, (store.consensi r).isSome → (store.reviews r).isSome) :
    (computeStatistics store n).issues_resolved = issuesResolvedRule store n ∧
    computeStatistics c3store 1 =
      { total_issues_raised := 2, issues_resolved := 1, issues_disputed := 1,
        critical_unresolved := 1, major_unresolved := 0,
        total_opportunities_raised := 0, opportunities_accepted := 0,
        opportunities_rejected := 0, consensus_reached := true } :=
  ⟨computeStatistics_resolved store n hwf, by rfl⟩

/-- Witness for C3 at the concrete scenario store. -/
theorem c3_statistics_recomputation_witness :
    (∀ r, (c3store.consensi r).isSome → (c3store.reviews r).isSome) ∧
    (computeStatistics c3store 1).issues_resolved = issuesResolvedRule c3store 1 := by
  have hwf : ∀ r, (c3store.consensi r).isSome → (c3store.reviews r).isSome := by
    intro r h
    by_cases hr : r = 1
    · subst hr; decide
    · exfalso
      simp only [c3store, updAt] at h
      rw [if_neg hr] at h
      simp at h
  exact ⟨hwf, (c3_statistics_recomputation c3store 1 hwf).1⟩

/-- C4: if round N's and round N+1's reviews have identical normalized
feedback content and both rounds freshly invoke the reviewer, the run
terminates at round N+1 with status `max_rounds_reached` via the stalemate
exit, and the author is never invoked for round N+1. -/
theorem c4_stalemate_termination (o : Oracles) (cfg : Config) (st0 : SessState)
    (N : Nat) (rN rN1 : CodexReview)
    (hN : o.review N = .ok rN) (hN1 : o.review (N + 1) = .ok rN1)
    (hcontent : normalizedFeedback rN = normalizedFeedback rN1)
    (hmN : N ∈ (runModel o cfg st0).2.2.codexCalls)
    (hmN1 : (N + 1) ∈ (runModel o cfg st0).2.2.codexCalls) :
    ∃ res, (runModel o cfg st0).1 = .ok res ∧
      res.status = .max_rounds_reached ∧ res.exitCode = 0 ∧
      res.totalRounds = N + 1 ∧ res.exitVia = .stalemate ∧
      (N + 1) ∉ (runModel o cfg st0).2.2.claudeCalls := by
  have hh : hashFeedback rN = hashFeedback rN1 := congrArg hashString hcontent
  have hle : (findResumePoint st0).1 ≤ N := loop_log_codex_lb o _ _ N hmN
  exact c4_loop o N rN rN1 hN hN1 hh _ _ hle hmN hmN1

set_option maxRecDepth 40000 in
/-- Witness for C4: a reviewer repeating itself on a fresh three-round session
stalls the run at round 2 without a round-2 author call. -/
theorem c4_stalemate_termination_witness :
    c4oracles.review 1 = .ok c4review ∧ c4oracles.review 2 = .ok c4review ∧
    (1 ∈ (runModel c4oracles ⟨"input".toList, 3⟩ (freshSession 3)).2.2.codexCalls ∧
     2 ∈ (runModel c4oracles ⟨"input".toList, 3⟩ (freshSession 3)).2.2.codexCalls) ∧
    ∃ res, (runModel c4oracles ⟨"input".toList, 3⟩ (freshSession 3)).1 = .ok res ∧
      res.status = .max_rounds_reached ∧ res.exitCode = 0 ∧
      res.totalRounds = 2 ∧ res.exitVia = .stalemate ∧
      2 ∉ (runModel c4oracles ⟨"input".toList, 3⟩ (freshSession 3)).2.2.claudeCalls := by
  have hc : (runModel c4oracles ⟨"input".toList, 3⟩ (freshSession 3)).2.2.codexCalls
      = [1, 2] := rfl
  refine ⟨rfl, rfl, ⟨by rw [hc]; decide, by rw [hc]; decide⟩, ?_⟩
  exact c4_stalemate_termination c4oracles ⟨"input".toList, 3⟩ (freshSession 3) 1
    c4review c4review rfl rfl rfl (by rw [hc]; decide) (by rw [hc]; decide)

/-- C5 (amended): the fingerprint is invariant under reordering the issues and
the opportunities of a review.  (The second half of the original claim — that
any single description change alters the fingerprint — is refuted by
`c5_fingerprint_collision`.) -/
theorem c5_fingerprint_stability_amended (r1 r2 : CodexReview)
    (hI : r1.issues.Perm r2.issues) (hO : r1.opportunities.Perm r2.opportunities) :
    hashFeedback r1 = hashFeedback r2 := by
  simp only [hashFeedback, normalizedFeedback]
  rw [map_sortKeyI_perm hI, map_sortKeyO_perm hO]

set_option maxRecDepth 40000 in
/-- Witness for C5 at a concrete two-issue permutation pair. -/
theorem c5_fingerprint_stability_amended_witness :
    c5permA.issues.Perm c5permB.issues ∧
    c5permA.opportunities.Perm c5permB.opportunities ∧
    hashFeedback c5permA = hashFeedback c5permB :=
  ⟨by decide, by decide,
    c5_fingerprint_stability_amended c5permA c5permB (by decide) (by decide)⟩

set_option maxRecDepth 40000 in
/-- Counterexample to the injectivity half of C5: two reviews identical except
for one issue description (Aa versus BB) share one fingerprint, because the
rolling 31-multiplier hash collides. -/
theorem c5_fingerprint_collision :
    c5reviewA.issues.map Issue.description ≠ c5reviewB.issues.map Issue.description ∧
    hashFeedback c5reviewA = hashFeedback c5reviewB :=
  ⟨by decide, by rfl⟩

/-- C6 (amended): extraction is first-truthy-wins over the candidate list
primary (sentinel content when present and non-empty, else the whole trimmed
text), fenced block, brace scan — so when sentinel content exists, the whole
text is never parsed directly, and a falsy parse (such as a JSON `0` or `""`)
does not win; when no candidate parses truthily the outcome is a failure
carrying the raw text. -/
theorem c6_extraction_order_amended :
    (∀ o, extractJsonValue o = firstTruthyParse (candidateList o)) ∧
    (∀ o, jsTruthy (extractJsonValue o) = false →
      parseCliOutputWith validateClaudeResponse o = .noPayload o) := by
  constructor
  · intro o
    exact chain_eq
      (match extractBetweenSentinels o with
       | some c => if c.isEmpty then jsTrim o else c
       | none => jsTrim o)
      (extractFromCodeFence o) (extractBraceContent o)
  · intro o h
    unfold parseCliOutputWith
    cases hx : extractJsonValue o with
    | none => rfl
    | some v =>
      rw [hx] at h
      simp [h]

/-- Witness for C6 at the unparseable output `x`. -/
theorem c6_extraction_order_amended_witness :
    extractJsonValue ['x'] = firstTruthyParse (candidateList ['x']) ∧
    jsTruthy (extractJsonValue ['x']) = false ∧
    parseCliOutputWith validateClaudeResponse ['x'] = .noPayload ['x'] :=
  ⟨c6_extraction_order_amended.1 ['x'], rfl,
    c6_extraction_order_amended.2 ['x'] rfl⟩

set_option maxRecDepth 40000 in
/-- Counterexample to the original C6 order: an output that is itself one JSON
string containing the two sentinels.  The claimed strategy list would parse
the full trimmed text (strategy 2) and succeed, but the code substitutes the
sentinel content for the whole text, fails on it, and extracts nothing. -/
theorem c6_sentinel_skips_direct_parse :
    extractJsonValue c6input = none ∧
    extractBetweenSentinels c6input = some ['x'] ∧
    tryParseJson ['x'] = none ∧
    tryParseJson (jsTrim c6input) = some (.str (sentinelStart ++ ('x' :: sentinelEnd))) :=
  ⟨rfl, rfl, rfl, rfl⟩

/-- C7: the repair substitutes the documented default for every missing or
mistyped expected field — verdict falls back to `partial`, booleans to
`false`, string arrays to `[]` (one-element array for a bare string),
confidence is clamped into `[0, 1]` with non-numeric values becoming 0, a
response item's missing `action_taken` becomes the empty string with its
verdict normalized, and a missing `updated_document` falls back to the
original document. -/
theorem c7_repair_field_defaults :
    normalizeVerdictJs none = "partial".toList ∧
    (∀ x, (∀ s, x ≠ JsonVal.str s) → normalizeVerdictJs (some x) = "partial".toList) ∧
    (∀ s, ¬(s = "agree".toList ∨ s = "disagree".toList ∨ s = "partial".toList) →
      normalizeVerdictJs (some (.str s)) = "partial".toList) ∧
    normalizeBooleanJs none = false ∧
    (∀ x, (∀ b, x ≠ JsonVal.bool b) → (∀ s, x ≠ JsonVal.str s) →
      normalizeBooleanJs (some x) = false) ∧
    normalizeStringArrayJs none = [] ∧
    (∀ s, normalizeStringArrayJs (some (.str s)) = [.str s]) ∧
    (∀ x, (∀ xs, x ≠ JsonVal.arr xs) → (∀ s, x ≠ JsonVal.str s) →
      normalizeStringArrayJs (some x) = []) ∧
    normalizeConfidenceJs none = jnum0 ∧
    (∀ x, (∀ q, x ≠ JsonVal.num q) → (∀ s, x ≠ JsonVal.str s) →
      normalizeConfidenceJs (some x) = jnum0) ∧
    (∀ v, JNum.leb jnum0 (normalizeConfidenceJs v) = true ∧
      JNum.leb (normalizeConfidenceJs v) jnum1 = true) ∧
    (∀ i fs, jsGet (repairItem i (.obj fs)) "verdict".toList =
      some (.str (normalizeVerdictJs (jsGet (.obj fs) "verdict".toList)))) ∧
    (∀ i r, jsGet r "action_taken".toList = none →
      jsGet (repairItem i r) "action_taken".toList = some (.str [])) ∧
    (∀ v orig, jsGet v "updated_document".toList = none →
      jsGet (repairRecord v orig) "updated_document".toList = some (.str orig)) := by
  refine ⟨rfl, ?_, ?_, rfl, ?_, rfl, ?_, ?_, rfl, ?_, ?_, ?_, ?_, ?_⟩
  · intro x hx
    cases x with
    | str s => exact absurd rfl (hx s)
    | _ => rfl
  · intro s hs
    simp only [normalizeVerdictJs]
    rw [if_neg hs]
  · intro x hb hs
    cases x with
    | bool b => exact absurd rfl (hb b)
    | str s => exact absurd rfl (hs s)
    | _ => rfl
  · intro s
    rfl
  · intro x ha hs
    cases x with
    | arr xs => exact absurd rfl (ha xs)
    | str s => exact absurd rfl (hs s)
    | _ => rfl
  · intro x hq hs
    cases x with
    | num q => exact absurd rfl (hq q)
    | str s => exact absurd rfl (hs s)
    | _ => rfl
  · intro v
    cases v with
    | none => exact ⟨by decide, by decide⟩
    | some x =>
      cases x with
      | num q => exact jnum_clamp_mem (JsNumV.val q)
      | str s => exact jnum_clamp_mem (parseFloatJs s)
      | _ => exact ⟨rfl, rfl⟩
  · intro i fs
    rfl
  · intro i r h
    cases r with
    | obj fs =>
      simp only [repairItem]
      rw [h]
      rfl
    | arr xs => rfl
    | _ => rfl
  · intro v orig h
    simp only [repairRecord]
    rw [h]
    rfl

/-- Witness for C7 at concrete mistyped values. -/
theorem c7_repair_field_defaults_witness :
    normalizeVerdictJs (some (.num jnum1)) = "partial".toList ∧
    normalizeVerdictJs (some (.str "maybe".toList)) = "partial".toList ∧
    normalizeBooleanJs (some (.num jnum1)) = false ∧
    normalizeStringArrayJs (some (.num jnum1)) = [] ∧
    normalizeConfidenceJs (some (.bool true)) = jnum0 ∧
    JNum.leb jnum0 (normalizeConfidenceJs (some (.num ⟨7, 0⟩))) = true ∧
    JNum.leb (normalizeConfidenceJs (some (.num ⟨7, 0⟩))) jnum1 = true ∧
    jsGet (repairItem 0 (.num jnum1)) "action_taken".toList = some (.str []) ∧
    jsGet (repairRecord (.obj []) "orig".toList) "updated_document".toList =
      some (.str "orig".toList) := by
  obtain ⟨-, h2, h3, -, h5, -, -, h8, -, h10, h11, -, h13, h14⟩ :=
    c7_repair_field_defaults
  exact ⟨h2 _ (fun s h => JsonVal.noConfusion h),
    h3 _ (by decide),
    h5 _ (fun b h => JsonVal.noConfusion h) (fun s h => JsonVal.noConfusion h),
    h8 _ (fun xs h => JsonVal.noConfusion h) (fun s h => JsonVal.noConfusion h),
    h10 _ (fun q h => JsonVal.noConfusion h) (fun s h => JsonVal.noConfusion h),
    (h11 (some (.num ⟨7, 0⟩))).1, (h11 (some (.num ⟨7, 0⟩))).2,
    h13 0 _ rfl, h14 _ _ rfl⟩

set_option maxRecDepth 40000 in
/-- C8 (amended): repair is attempted at most once and the repaired structure
re-validated at most once on every input; a payload missing only
`action_taken` repairs to an empty string and passes; a payload whose
`responses` is not a list repairs to an empty response list and — contrary to
the original claim — passes re-validation too. -/
theorem c8_repair_once_amended :
    (∀ out orig, (respondParse out orig).repairAttempts ≤ 1 ∧
      (respondParse out orig).revalidations ≤ 1) ∧
    respondParse c8missingAction "orig".toList = ⟨.ok c8repaired1, 1, 1⟩ ∧
    respondParse c8badResponses "orig".toList = ⟨.ok c8repaired2, 1, 1⟩ := by
  refine ⟨?_, rfl, rfl⟩
  intro out orig
  unfold respondParse
  split
  · exact ⟨by simp, by simp⟩
  · split
    · exact ⟨by simp, by simp⟩
    · split <;> exact ⟨by simp, by simp⟩

set_option maxRecDepth 40000 in
/-- Counterexample to the failure half of the original C8: the payload whose
`responses` field is the string nope is repaired to an empty response list,
which the schema accepts, so the parse succeeds instead of failing. -/
theorem c8_unparseable_responses_passes :
    (extractJsonValue c8badResponses).bind
      (fun v => jsGet v "responses".toList) = some (.str "nope".toList) ∧
    (respondParse c8badResponses "orig".toList).result = .ok c8repaired2 ∧
    c8repaired2.responses = [] :=
  ⟨rfl, rfl, rfl⟩

/-- C9 (amended): a failure propagating out of the round loop yields exit
code 2 and one error event with code `ORCHESTRATION_ERROR`, the constant
phase label `orchestration`, the session's current round and
`recoverable = true`; but — contrary to the original claim — the session is
not marked `failed`: its manifest status is left exactly as it was when the
run began. -/
theorem c9_failure_propagation_amended (o : Oracles) (cfg : Config) (st0 : SessState)
    (msg : Str) (st : SessState) (lg : RunLog)
    (hfail : runModel o cfg st0 = (.error msg, st, lg)) :
    executeModel o cfg st0 =
      (2, [⟨"ORCHESTRATION_ERROR".toList, msg, "orchestration".toList,
        some st.manifest.current_round, true⟩], st) ∧
    st.manifest.status = st0.manifest.status := by
  constructor
  · unfold executeModel
    rw [hfail]
  · have h2 : (runModel o cfg st0).2.1.manifest.status = st0.manifest.status :=
      loop_error_status o _ _ msg (show (runModel o cfg st0).1 = .error msg from
        by rw [hfail])
    rw [hfail] at h2
    exact h2

set_option maxRecDepth 40000 in
/-- Witness for C9: a reviewer that always fails on a fresh one-round
session. -/
theorem c9_failure_propagation_amended_witness :
    executeModel c9oracles ⟨"in".toList, 1⟩ (freshSession 1) =
      (2, [⟨"ORCHESTRATION_ERROR".toList, "review exploded".toList,
        "orchestration".toList, some 1, true⟩],
        (runModel c9oracles ⟨"in".toList, 1⟩ (freshSession 1)).2.1) ∧
    (runModel c9oracles ⟨"in".toList, 1⟩ (freshSession 1)).2.1.manifest.status =
      (freshSession 1).manifest.status :=
  c9_failure_propagation_amended c9oracles ⟨"in".toList, 1⟩ (freshSession 1)
    "review exploded".toList _ _ rfl

set_option maxRecDepth 40000 in
/-- Counterexample to the terminated-with-status-failed half of the original
C9: after the propagated failure the persisted status is still `in_progress`,
not `failed`, even though the exit code is 2 and the error event was
emitted. -/
theorem c9_failure_leaves_in_progress :
    (executeModel c9oracles ⟨"in".toList, 1⟩ (freshSession 1)).1 = 2 ∧
    (executeModel c9oracles ⟨"in".toList, 1⟩ (freshSession 1)).2.2.manifest.status =
      .in_progress ∧
    SessionStatus.in_progress ≠ SessionStatus.failed ∧
    (executeModel c9oracles ⟨"in".toList, 1⟩ (freshSession 1)).2.1.map
      ErrorEvent.phase = ["orchestration".toList] :=
  ⟨rfl, rfl, by decide, rfl⟩

/-- C10 (amended): the previous-feedback fingerprint starts as null on every
run, so a stalemate exit can only occur strictly after the round the run
started at — the first loop iteration is never treated as a stalemate.  (The
original claim's stronger reading — that the first freshly executed review
after resumption cannot stalemate — is refuted by
`c10_resumed_stalemate_on_loaded_review`.) -/
theorem c10_stalemate_memory_amended (o : Oracles) (cfg : Config) (st0 : SessState)
    (res : RunResult)
    (hok : (runModel o cfg st0).1 = .ok res) (hvia : res.exitVia = .stalemate) :
    (findResumePoint st0).1 < res.totalRounds :=
  stalemate_not_first o _ _ res rfl hok hvia

set_option maxRecDepth 40000 in
/-- Witness for C10 at the resumed stalemate run: the exit round 2 is strictly
past the resume round 1. -/
theorem c10_stalemate_memory_amended_witness :
    c10run.1 = .ok ⟨.max_rounds_reached, 0, "d2".toList, 2, .stalemate⟩ ∧
    (findResumePoint c10state).1 <
      (⟨.max_rounds_reached, 0, "d2".toList, 2, .stalemate⟩ : RunResult).totalRounds :=
  ⟨rfl, c10_stalemate_memory_amended c10oracles ⟨"input".toList, 5⟩ c10state
    ⟨.max_rounds_reached, 0, "d2".toList, 2, .stalemate⟩ rfl rfl⟩

set_option maxRecDepth 40000 in
/-- Counterexample to the original C10: a session resumed mid-round loads the
persisted round-1 review (seeding the fingerprint) and then stalemates on the
round-2 review — the first review actually executed after resumption — never
invoking the author for round 2. -/
theorem c10_resumed_stalemate_on_loaded_review :
    findResumePoint c10state = (1, .claude_response) ∧
    c10run.1 = .ok ⟨.max_rounds_reached, 0, "d2".toList, 2, .stalemate⟩ ∧
    c10run.2.2.codexCalls = [2] ∧ c10run.2.2.claudeCalls = [1] :=
  ⟨rfl, rfl, rfl, rfl⟩

end Quibble
